import Mathlib

/-!
Verification development for the cl_server_shared repository.

Shallow embedding of the job-claim queue (SQLAlchemyJobRepository in
adapters.py and shared_db.py), the job-scoped file storage
(FileStorageService in file_storage.py and JobStorageService in
job_storage.py), and the conversion helpers (job_translator.py,
models/job.py).  Machine integers are modelled as Nat/Int with explicit
reductions modulo 2^32 where the SHA-256 arithmetic wraps; fallible code
(Python exceptions) is modelled with Option/Except.
-/

set_option maxRecDepth 10000

/-- Json models the Python JSON value universe produced by json.loads and
consumed by json.dumps.  Numbers are modelled as integers, which covers
every value the repository stores (progress counts, sizes, ids). -/
inductive Json where
  | null : Json
  | bool (b : Bool) : Json
  | num (n : Int) : Json
  | str (s : String) : Json
  | arr (xs : List Json) : Json
  | obj (ms : List (String × Json)) : Json

/-- skipWs drops the JSON whitespace characters, as json.loads does between
tokens. -/
def skipWs : List Char → List Char
  | [] => []
  | c :: cs =>
      if c = ' ' ∨ c = Char.ofNat 9 ∨ c = Char.ofNat 10 ∨ c = Char.ofNat 13 then
        skipWs cs
      else c :: cs

/-- digitVal converts a decimal digit character to its value, returning none
for non-digits. -/
def digitVal (c : Char) : Option Nat :=
  if c.toNat ≥ 48 ∧ c.toNat ≤ 57 then some (c.toNat - 48) else none

/-- parseDigits consumes a nonempty run of decimal digits and returns the
accumulated natural number together with the rest of the input. -/
def parseDigits : List Char → Nat → Option (Nat × List Char)
  | [], acc => some (acc, [])
  | c :: cs, acc =>
      match digitVal c with
      | some d => parseDigits cs (acc * 10 + d)
      | none => some (acc, c :: cs)

/-- parseStringBody consumes characters up to an unescaped closing quote,
modelling the JSON string grammar without escape sequences (the repository
never relies on escapes). -/
def parseStringBody : List Char → Option (String × List Char)
  | [] => none
  | c :: cs =>
      if c = Char.ofNat 34 then some ("", cs)
      else
        match parseStringBody cs with
        | some (s, rest) => some (String.mk (c :: s.data), rest)
        | none => none

/-- expectLit checks the input starts with the given literal characters and
consumes them. -/
def expectLit : List Char → List Char → Option (List Char)
  | [], input => some input
  | l :: ls, c :: cs => if c = l then expectLit ls cs else none
  | _ :: _, [] => none

mutual

/-- parseVal is a fuel-indexed recursive-descent parser for the JSON value
grammar; it models the behaviour of json.loads on the subset of JSON the
repository persists.  Fuel bounds the nesting depth; callers supply the
input length, which suffices. -/
def parseVal : Nat → List Char → Option (Json × List Char)
  | 0, _ => none
  | _ + 1, [] => none
  | fuel + 1, c :: cs =>
      if c = 'n' then
        (expectLit ['u', 'l', 'l'] cs).map (fun rest => (Json.null, rest))
      else if c = 't' then
        (expectLit ['r', 'u', 'e'] cs).map (fun rest => (Json.bool true, rest))
      else if c = 'f' then
        (expectLit ['a', 'l', 's', 'e'] cs).map (fun rest => (Json.bool false, rest))
      else if c = Char.ofNat 34 then
        (parseStringBody cs).map (fun p => (Json.str p.1, p.2))
      else if c = '-' then
        match cs with
        | d :: ds =>
            match digitVal d with
            | some v =>
                match parseDigits ds v with
                | some (n, rest) => some (Json.num (-(Int.ofNat n)), rest)
                | none => none
            | none => none
        | [] => none
      else if c = '[' then
        match skipWs cs with
        | d :: ds =>
            if d = ']' then some (Json.arr [], ds)
            else
              match parseElems fuel (d :: ds) with
              | some (xs, rest) => some (Json.arr xs, rest)
              | none => none
        | [] => none
      else if c = Char.ofNat 123 then
        match skipWs cs with
        | d :: ds =>
            if d = Char.ofNat 125 then some (Json.obj [], ds)
            else
              match parseMembers fuel (d :: ds) with
              | some (ms, rest) => some (Json.obj ms, rest)
              | none => none
        | [] => none
      else
        match digitVal c with
        | some v =>
            match parseDigits cs v with
            | some (n, rest) => some (Json.num (Int.ofNat n), rest)
            | none => none
        | none => none

/-- parseElems parses a comma-separated nonempty list of array elements up to
the closing bracket. -/
def parseElems : Nat → List Char → Option (List Json × List Char)
  | 0, _ => none
  | fuel + 1, input =>
      match parseVal fuel (skipWs input) with
      | some (v, rest) =>
          match skipWs rest with
          | c :: cs =>
              if c = ',' then
                match parseElems fuel cs with
                | some (xs, rest2) => some (v :: xs, rest2)
                | none => none
              else if c = ']' then some ([v], cs)
              else none
          | [] => none
      | none => none

/-- parseMembers parses a comma-separated nonempty list of object members up
to the closing brace. -/
def parseMembers : Nat → List Char → Option (List (String × Json) × List Char)
  | 0, _ => none
  | fuel + 1, input =>
      match skipWs input with
      | c :: cs =>
          if c = Char.ofNat 34 then
            match parseStringBody cs with
            | some (k, rest) =>
                match skipWs rest with
                | d :: ds =>
                    if d = ':' then
                      match parseVal fuel (skipWs ds) with
                      | some (v, rest2) =>
                          match skipWs rest2 with
                          | e :: es =>
                              if e = ',' then
                                match parseMembers fuel es with
                                | some (ms, rest3) => some ((k, v) :: ms, rest3)
                                | none => none
                              else if e = Char.ofNat 125 then some ([(k, v)], es)
                              else none
                          | [] => none
                      | none => none
                    else none
                | [] => none
            | none => none
          else none
      | [] => none

end

/-- jsonLoads models Python json.loads: it parses the whole string as one
JSON value, returning none where json.loads raises JSONDecodeError. -/
def jsonLoads (s : String) : Option Json :=
  match parseVal (s.length + 1) (skipWs s.data) with
  | some (v, rest) => if skipWs rest = [] then some v else none
  | none => none

mutual

/-- dumps models Python json.dumps restricted to the separators the
repository relies on; claims never inspect the concrete serialization, only
that it is a function of the value. -/
def dumps : Json → String
  | Json.null => "null"
  | Json.bool b => if b then "true" else "false"
  | Json.num n => toString n
  | Json.str s => String.mk (Char.ofNat 34 :: s.data ++ [Char.ofNat 34])
  | Json.arr xs => "[" ++ dumpsElems xs ++ "]"
  | Json.obj ms => String.mk [Char.ofNat 123] ++ dumpsMembers ms ++ String.mk [Char.ofNat 125]

/-- dumpsElems serializes the elements of a JSON array. -/
def dumpsElems : List Json → String
  | [] => ""
  | [x] => dumps x
  | x :: y :: xs => dumps x ++ ", " ++ dumpsElems (y :: xs)

/-- dumpsMembers serializes the members of a JSON object. -/
def dumpsMembers : List (String × Json) → String
  | [] => ""
  | [(k, v)] => String.mk (Char.ofNat 34 :: k.data ++ [Char.ofNat 34]) ++ ": " ++ dumps v
  | (k, v) :: m :: ms =>
      String.mk (Char.ofNat 34 :: k.data ++ [Char.ofNat 34]) ++ ": " ++ dumps v ++ ", "
        ++ dumpsMembers (m :: ms)

end

/-- jsonTruthy models Python truthiness on JSON values: None, False, 0, empty
string, empty list and empty dict are falsy. -/
def jsonTruthy : Json → Bool
  | Json.null => false
  | Json.bool b => b
  | Json.num n => !(n == 0)
  | Json.str s => !(s == "")
  | Json.arr xs => !xs.isEmpty
  | Json.obj ms => !ms.isEmpty

/-- pyOrStr models the Python expression a or b on an optional string: the
left operand is taken when present and truthy (nonempty). -/
def pyOrStr (a : Option String) (b : String) : String :=
  match a with
  | none => b
  | some s => if s = "" then b else s

/-- pyOrInt models the Python expression a or b on an optional integer: the
left operand is taken when present and truthy (nonzero). -/
def pyOrInt (a : Option Int) (b : Int) : Int :=
  match a with
  | none => b
  | some v => if v = 0 then b else v

/-- pow32 is 2 to the 32nd power, the modulus of the 32-bit arithmetic used
by SHA-256 (hashlib.sha256). -/
def pow32 : Nat := 4294967296

/-- wrap32 reduces a natural number modulo 2^32, making 32-bit overflow
explicit. -/
def wrap32 (x : Nat) : Nat := x % pow32

/-- rotr32 rotates a 32-bit word right by n bits. -/
def rotr32 (n x : Nat) : Nat :=
  wrap32 (Nat.lor (Nat.shiftRight x n) (Nat.shiftLeft x (32 - n)))

/-- sigmaS0 is the small sigma-0 function of the SHA-256 message schedule. -/
def sigmaS0 (x : Nat) : Nat :=
  Nat.xor (Nat.xor (rotr32 7 x) (rotr32 18 x)) (Nat.shiftRight x 3)

/-- sigmaS1 is the small sigma-1 function of the SHA-256 message schedule. -/
def sigmaS1 (x : Nat) : Nat :=
  Nat.xor (Nat.xor (rotr32 17 x) (rotr32 19 x)) (Nat.shiftRight x 10)

/-- sigmaB0 is the big sigma-0 function of the SHA-256 compression loop. -/
def sigmaB0 (x : Nat) : Nat :=
  Nat.xor (Nat.xor (rotr32 2 x) (rotr32 13 x)) (rotr32 22 x)

/-- sigmaB1 is the big sigma-1 function of the SHA-256 compression loop. -/
def sigmaB1 (x : Nat) : Nat :=
  Nat.xor (Nat.xor (rotr32 6 x) (rotr32 11 x)) (rotr32 25 x)

/-- chFn is the choice function of the SHA-256 compression loop. -/
def chFn (x y z : Nat) : Nat :=
  Nat.xor (Nat.land x y) (Nat.land (Nat.xor x 4294967295) z)

/-- majFn is the majority function of the SHA-256 compression loop. -/
def majFn (x y z : Nat) : Nat :=
  Nat.xor (Nat.xor (Nat.land x y) (Nat.land x z)) (Nat.land y z)

/-- roundK lists the 64 SHA-256 round constants (fractional parts of the cube
roots of the first 64 primes), written in decimal. -/
def roundK : List Nat :=
  [1116352408, 1899447441, 3049323471, 3921009573, 961987163, 1508970993,
   2453635748, 2870763221, 3624381080, 310598401, 607225278, 1426881987,
   1925078388, 2162078206, 2614888103, 3248222580, 3835390401, 4022224774,
   264347078, 604807628, 770255983, 1249150122, 1555081692, 1996064986,
   2554220882, 2821834349, 2952996808, 3210313671, 3336571891, 3584528711,
   113926993, 338241895, 666307205, 773529912, 1294757372, 1396182291,
   1695183700, 1986661051, 2177026350, 2456956037, 2730485921, 2820302411,
   3259730800, 3345764771, 3516065817, 3600352804, 4094571909, 275423344,
   430227734, 506948616, 659060556, 883997877, 958139571, 1322822218,
   1537002063, 1747873779, 1955562222, 2024104815, 2227730452, 2361852424,
   2428436474, 2756734187, 3204031479, 3329325298]

/-- initH lists the 8 initial SHA-256 state words (fractional parts of the
square roots of the first 8 primes), written in decimal. -/
def initH : List Nat :=
  [1779033703, 3144134277, 1013904242, 2773480762, 1359893119, 2600822924,
   528734635, 1541459225]

/-- bytesBE converts a natural number to its k-byte big-endian encoding. -/
def bytesBE : Nat → Nat → List Nat
  | 0, _ => []
  | k + 1, v => bytesBE k (Nat.shiftRight v 8) ++ [v % 256]

/-- padMessage appends the SHA-256 padding: a 0x80 byte, zero bytes up to 56
modulo 64, then the bit length as 8 big-endian bytes. -/
def padMessage (msg : List Nat) : List Nat :=
  msg ++ [128] ++ List.replicate ((119 - msg.length % 64) % 64) 0
    ++ bytesBE 8 (msg.length * 8)

/-- wordsOfBytes packs bytes into big-endian 32-bit words, four at a time. -/
def wordsOfBytes : List Nat → List Nat
  | a :: b :: c :: d :: rest =>
      (a * 16777216 + b * 65536 + c * 256 + d) :: wordsOfBytes rest
  | _ => []

/-- extendSchedule extends the 16 message words to the full 64-entry SHA-256
message schedule, one word per unit of fuel. -/
def extendSchedule : Nat → List Nat → List Nat
  | 0, w => w
  | fuel + 1, w =>
      let t := w.length
      let nw := wrap32 (sigmaS1 (w.getD (t - 2) 0) + w.getD (t - 7) 0
        + sigmaS0 (w.getD (t - 15) 0) + w.getD (t - 16) 0)
      extendSchedule fuel (w ++ [nw])

/-- compressRound performs one SHA-256 round on the working state
[a,b,c,d,e,f,g,h] given a pair of round constant and schedule word. -/
def compressRound (st : List Nat) (kw : Nat × Nat) : List Nat :=
  match st with
  | [a, b, c, d, e, f, g, h] =>
      let t1 := wrap32 (h + sigmaB1 e + chFn e f g + kw.1 + kw.2)
      let t2 := wrap32 (sigmaB0 a + majFn a b c)
      [wrap32 (t1 + t2), a, b, c, wrap32 (d + t1), e, f, g]
  | other => other

/-- processBlock applies the SHA-256 compression function to one 64-byte
block. -/
def processBlock (h : List Nat) (block : List Nat) : List Nat :=
  let ws := extendSchedule 48 (wordsOfBytes block)
  let st := (roundK.zip ws).foldl compressRound h
  (h.zip st).map (fun p => wrap32 (p.1 + p.2))

/-- chunksOfLen splits a list into consecutive chunks of the given positive
length, the last chunk possibly shorter; with length 0 it returns the list
as one chunk (unused degenerate case kept for totality). -/
def chunksOfLen (n : Nat) (l : List α) : List (List α) :=
  match n, l with
  | _, [] => []
  | 0, l => [l]
  | n + 1, x :: xs => (x :: xs.take n) :: chunksOfLen (n + 1) (xs.drop n)
termination_by l.length
decreasing_by
  simp only [List.length_drop, List.length_cons]
  omega

/-- sha256Bytes computes the 32-byte SHA-256 digest of a byte list. -/
def sha256Bytes (msg : List Nat) : List Nat :=
  let blocks := chunksOfLen 64 (padMessage msg)
  let h := blocks.foldl processBlock initH
  (h.map (bytesBE 4)).flatten

/-- hexDigitChar gives the lowercase hex digit character for a value below
16. -/
def hexDigitChar (n : Nat) : Char :=
  if n < 10 then Char.ofNat (48 + n) else Char.ofNat (87 + n)

/-- byteHex gives the two lowercase hex digits of a byte. -/
def byteHex (b : Nat) : List Char :=
  [hexDigitChar (b / 16), hexDigitChar (b % 16)]

/-- sha256Hex is the lowercase hex digest of a byte list, as returned by
hashlib hexdigest. -/
def sha256Hex (msg : List Nat) : String :=
  String.mk ((sha256Bytes msg).map byteHex).flatten

/-- DBJob models one row of the jobs table as read and written by the
repository adapters: params and task_output are persisted as JSON strings,
timestamps are epoch milliseconds.  The job_id column is UNIQUE at the
database level, so table states with duplicate job ids are unreachable;
theorems that need uniqueness assume it explicitly. -/
structure DBJob where
  job_id : String
  task_type : String
  params : String
  status : String
  progress : Int
  created_at : Int
  started_at : Option Int
  completed_at : Option Int
  task_output : Option String
  error_message : Option String
  retry_count : Int
  max_retries : Int
  created_by : Option String
  priority : Option Int
deriving DecidableEq

/-- LibraryJob models the cl_ml_tools library Job schema (7 fields) that the
adapters translate to and from. -/
structure LibraryJob where
  job_id : String
  task_type : String
  params : Json
  status : String
  progress : Int
  task_output : Option Json
  error_message : Option String

/-- BroadcastEvent records one invocation of the repository broadcast hook
with the arguments passed to it (status, job id, progress). -/
structure BroadcastEvent where
  status : String
  job_id : String
  progress : Int
deriving DecidableEq

/-- UpdateKwargs models the keyword arguments of update_job: a field is some
when the key is present in kwargs.  Nullable columns take an inner Option so
an explicit None value can be passed through. -/
structure UpdateKwargs where
  status : Option String := none
  progress : Option Int := none
  task_output : Option (Option Json) := none
  error_message : Option (Option String) := none
  retry_count : Option Int := none
  started_at : Option (Option Int) := none
  completed_at : Option (Option Int) := none

/-- UpdateValues models the update_values dict built inside update_job: a
field is some exactly when the corresponding key was written. -/
structure UpdateValues where
  status : Option String := none
  started_at : Option (Option Int) := none
  completed_at : Option (Option Int) := none
  progress : Option Int := none
  task_output : Option (Option String) := none
  error_message : Option (Option String) := none
  retry_count : Option Int := none

/-- uvIsEmpty models the emptiness test on the update_values dict. -/
def uvIsEmpty (uv : UpdateValues) : Bool :=
  uv.status.isNone && uv.started_at.isNone && uv.completed_at.isNone
    && uv.progress.isNone && uv.task_output.isNone && uv.error_message.isNone
    && uv.retry_count.isNone

/-- applyUpdateValues models the SQL UPDATE ... VALUES semantics on one row:
every written key overwrites the column, all other columns are kept. -/
def applyUpdateValues (uv : UpdateValues) (j : DBJob) : DBJob :=
  { j with
    status := uv.status.getD j.status
    started_at := uv.started_at.getD j.started_at
    completed_at := uv.completed_at.getD j.completed_at
    progress := uv.progress.getD j.progress
    task_output := uv.task_output.getD j.task_output
    error_message := uv.error_message.getD j.error_message
    retry_count := uv.retry_count.getD j.retry_count }

/-- pyDumpsOrNone models the Python idiom json.dumps(x) if x else None used
by both adapter snapshots for task_output serialization. -/
def pyDumpsOrNone (t : Option Json) : Option String :=
  match t with
  | some j => if jsonTruthy j then some (dumps j) else none
  | none => none

/-- AddResult bundles the table state after add_job, the returned job id, and
the broadcast events emitted during the call. -/
structure AddResult where
  db : List DBJob
  ret : String
  events : List BroadcastEvent

/-- UpdateResult bundles the table state after update_job, the returned
boolean, and the broadcast events emitted during the call. -/
structure UpdateResult where
  db : List DBJob
  ok : Bool
  events : List BroadcastEvent

/-- FetchResult bundles the table state after fetch_next_job and its return
value; the Except layer carries a propagated JSONDecodeError from params
parsing. -/
structure FetchResult where
  db : List DBJob
  ret : Except String (Option LibraryJob)

/-- DeleteResult bundles the table state after delete_job and the returned
boolean. -/
structure DeleteResult where
  db : List DBJob
  ok : Bool

namespace Adapters

/-- db_to_library_job embeds SQLAlchemyJobRepository._db_to_library_job of
adapters.py: params is parsed from JSON (a failure raises, modelled as
error), task_output is parsed under try/except JSONDecodeError with a
falsy-string guard (empty or missing string stays None, a parse failure
becomes None). -/
def db_to_library_job (j : DBJob) : Except String LibraryJob :=
  let paramsE : Except String Json :=
    if j.params == "" then Except.ok (Json.obj [])
    else
      match jsonLoads j.params with
      | some v => Except.ok v
      | none => Except.error "JSONDecodeError"
  let taskOut : Option Json :=
    match j.task_output with
    | some s => if s == "" then none else jsonLoads s
    | none => none
  paramsE.map (fun params =>
    { job_id := j.job_id
      task_type := j.task_type
      params := params
      status := j.status
      progress := j.progress
      task_output := taskOut
      error_message := j.error_message })

/-- new_job_row embeds the DatabaseJob constructor call inside add_job of
adapters.py: created_at is stamped, retry_count 0, max_retries 3, created_by
copied; no priority, started_at or completed_at argument is passed, so those
columns are left unset. -/
def new_job_row (job : LibraryJob) (created_by : Option String) (now : Int) : DBJob :=
  { job_id := job.job_id
    task_type := job.task_type
    params := dumps job.params
    status := job.status
    progress := job.progress
    created_at := now
    started_at := none
    completed_at := none
    task_output := pyDumpsOrNone job.task_output
    error_message := job.error_message
    retry_count := 0
    max_retries := 3
    created_by := created_by
    priority := none }

/-- add_job embeds SQLAlchemyJobRepository.add_job of adapters.py: it builds
the row, inserts it and returns the job id.  The priority parameter is
accepted but not used by the function body.  No broadcast hook is invoked.
The UNIQUE constraint on job_id (which would reject a duplicate insert at
commit) is outside the function body and not modelled here. -/
def add_job (db : List DBJob) (job : LibraryJob) (created_by : Option String)
    (priority : Option Int) (now : Int) : AddResult :=
  let row := new_job_row job created_by now
  { db := db ++ [row], ret := row.job_id, events := [] }

/-- get_job embeds SQLAlchemyJobRepository.get_job of adapters.py. -/
def get_job (db : List DBJob) (job_id : String) : Except String (Option LibraryJob) :=
  match db.find? (fun j => j.job_id == job_id) with
  | some j => (db_to_library_job j).map some
  | none => Except.ok none

/-- mkUpdateValues embeds the update_values construction of update_job in
adapters.py.  The prevStarted argument is the result of the started_at
SELECT; the source evaluates that query lazily only on the processing
branch, which is observationally identical because the query is a pure
read. -/
def mkUpdateValues (kw : UpdateKwargs) (prevStarted : Option Int) (now : Int) : UpdateValues :=
  let uv : UpdateValues := {}
  let uv :=
    match kw.status with
    | none => uv
    | some s =>
        let uvS := { uv with status := some s }
        if s == "processing" then
          match prevStarted with
          | none => { uvS with started_at := some (some now) }
          | some _ => uvS
        else if s == "completed" || s == "error" then
          { uvS with completed_at := some (some now) }
        else uvS
  let uv :=
    match kw.progress with
    | none => uv
    | some p => { uv with progress := some p }
  let uv :=
    match kw.task_output with
    | none => uv
    | some t => { uv with task_output := some (pyDumpsOrNone t) }
  let uv :=
    match kw.error_message with
    | none => uv
    | some e => { uv with error_message := some e }
  let uv :=
    match kw.retry_count with
    | none => uv
    | some r => { uv with retry_count := some r }
  let uv :=
    match kw.started_at with
    | none => uv
    | some v => { uv with started_at := some v }
  match kw.completed_at with
  | none => uv
  | some v => { uv with completed_at := some v }

/-- update_job embeds SQLAlchemyJobRepository.update_job of adapters.py: it
builds update_values, returns false on an empty update set, otherwise runs
UPDATE WHERE job_id matches, and broadcasts (status or processing, job_id,
progress) exactly when a row matched and progress was supplied. -/
def update_job (db : List DBJob) (job_id : String) (kw : UpdateKwargs) (now : Int) :
    UpdateResult :=
  let prevStarted := (db.find? (fun j => j.job_id == job_id)).bind (fun j => j.started_at)
  let uv := mkUpdateValues kw prevStarted now
  if uvIsEmpty uv then { db := db, ok := false, events := [] }
  else
    let rowcount := db.countP (fun j => j.job_id == job_id)
    let db2 := db.map (fun j => if j.job_id == job_id then applyUpdateValues uv j else j)
    let events :=
      match kw.progress with
      | some p =>
          if rowcount == 0 then []
          else [{ status := pyOrStr kw.status "processing", job_id := job_id, progress := p }]
      | none => []
    { db := db2, ok := !(rowcount == 0), events := events }

/-- select_next embeds the selection query of fetch_next_job in adapters.py:
rows with status queued and a requested task type, ordered by created_at
ascending, limit 1.  The fold keeps the earliest row in table order among
equal created_at values, matching a stable ORDER BY. -/
def select_next (db : List DBJob) (task_types : List String) : Option DBJob :=
  (db.filter (fun j => j.status == "queued" && task_types.contains j.task_type)).foldl
    (fun acc j =>
      match acc with
      | none => some j
      | some b => if j.created_at < b.created_at then some j else some b)
    none

/-- fetch_next_job embeds SQLAlchemyJobRepository.fetch_next_job of
adapters.py: empty task_types returns absent; otherwise the selected row is
claimed by a conditional UPDATE guarded on status still being queued, the
row is re-read and converted.  Zero affected rows return absent. -/
def fetch_next_job (db : List DBJob) (task_types : List String) (now : Int) : FetchResult :=
  if task_types.isEmpty then { db := db, ret := Except.ok none }
  else
    match select_next db task_types with
    | none => { db := db, ret := Except.ok none }
    | some sel =>
        let claimP := fun (j : DBJob) => j.job_id == sel.job_id && j.status == "queued"
        let rowcount := db.countP claimP
        let db2 := db.map (fun j =>
          if claimP j then { j with status := "processing", started_at := some now } else j)
        if rowcount == 0 then { db := db2, ret := Except.ok none }
        else
          match db2.find? (fun j => j.job_id == sel.job_id) with
          | some row => { db := db2, ret := (db_to_library_job row).map some }
          | none => { db := db2, ret := Except.ok none }

/-- delete_job embeds SQLAlchemyJobRepository.delete_job of adapters.py: the
row found by job_id is deleted, reporting whether one existed. -/
def delete_job (db : List DBJob) (job_id : String) : DeleteResult :=
  match db.find? (fun j => j.job_id == job_id) with
  | some _ => { db := db.eraseP (fun j => j.job_id == job_id), ok := true }
  | none => { db := db, ok := false }

end Adapters

namespace SharedDb

/-- db_to_library_job embeds SQLAlchemyJobRepository._db_to_library_job of
shared_db.py: params is parsed from JSON (a failure raises, modelled as
error), task_output is parsed under try/except JSONDecodeError with a
falsy-string guard (empty or missing string stays None, a parse failure
becomes None). -/
def db_to_library_job (j : DBJob) : Except String LibraryJob :=
  let paramsE : Except String Json :=
    if j.params == "" then Except.ok (Json.obj [])
    else
      match jsonLoads j.params with
      | some v => Except.ok v
      | none => Except.error "JSONDecodeError"
  let taskOut : Option Json :=
    match j.task_output with
    | some s => if s == "" then none else jsonLoads s
    | none => none
  paramsE.map (fun params =>
    { job_id := j.job_id
      task_type := j.task_type
      params := params
      status := j.status
      progress := j.progress
      task_output := taskOut
      error_message := j.error_message })

/-- new_job_row embeds the Job model constructor call inside add_job of
shared_db.py: created_at is stamped, retry_count 0, max_retries 3, created_by
copied; no priority, started_at or completed_at argument is passed, so those
columns are left unset. -/
def new_job_row (job : LibraryJob) (created_by : Option String) (now : Int) : DBJob :=
  { job_id := job.job_id
    task_type := job.task_type
    params := dumps job.params
    status := job.status
    progress := job.progress
    created_at := now
    started_at := none
    completed_at := none
    task_output := pyDumpsOrNone job.task_output
    error_message := job.error_message
    retry_count := 0
    max_retries := 3
    created_by := created_by
    priority := none }

/-- add_job embeds SQLAlchemyJobRepository.add_job of shared_db.py: it builds
the row, inserts it and returns the job id.  The priority parameter is
accepted but not used by the function body.  No broadcast hook is invoked.
The UNIQUE constraint on job_id (which would reject a duplicate insert at
commit) is outside the function body and not modelled here. -/
def add_job (db : List DBJob) (job : LibraryJob) (created_by : Option String)
    (priority : Option Int) (now : Int) : AddResult :=
  let row := new_job_row job created_by now
  { db := db ++ [row], ret := row.job_id, events := [] }

/-- get_job embeds SQLAlchemyJobRepository.get_job of shared_db.py. -/
def get_job (db : List DBJob) (job_id : String) : Except String (Option LibraryJob) :=
  match db.find? (fun j => j.job_id == job_id) with
  | some j => (db_to_library_job j).map some
  | none => Except.ok none

/-- mkUpdateValues embeds the update_values construction of update_job in
shared_db.py.  The prevStarted argument is the result of the started_at
SELECT; the source evaluates that query lazily only on the processing
branch, which is observationally identical because the query is a pure
read. -/
def mkUpdateValues (kw : UpdateKwargs) (prevStarted : Option Int) (now : Int) : UpdateValues :=
  let uv : UpdateValues := {}
  let uv :=
    match kw.status with
    | none => uv
    | some s =>
        let uvS := { uv with status := some s }
        if s == "processing" then
          match prevStarted with
          | none => { uvS with started_at := some (some now) }
          | some _ => uvS
        else if s == "completed" || s == "error" then
          { uvS with completed_at := some (some now) }
        else uvS
  let uv :=
    match kw.progress with
    | none => uv
    | some p => { uv with progress := some p }
  let uv :=
    match kw.task_output with
    | none => uv
    | some t => { uv with task_output := some (pyDumpsOrNone t) }
  let uv :=
    match kw.error_message with
    | none => uv
    | some e => { uv with error_message := some e }
  let uv :=
    match kw.retry_count with
    | none => uv
    | some r => { uv with retry_count := some r }
  let uv :=
    match kw.started_at with
    | none => uv
    | some v => { uv with started_at := some v }
  match kw.completed_at with
  | none => uv
  | some v => { uv with completed_at := some v }

/-- update_job embeds SQLAlchemyJobRepository.update_job of shared_db.py: it
builds update_values, returns false on an empty update set, otherwise runs
UPDATE WHERE job_id matches, and broadcasts (status or processing, job_id,
progress) exactly when a row matched and progress was supplied. -/
def update_job (db : List DBJob) (job_id : String) (kw : UpdateKwargs) (now : Int) :
    UpdateResult :=
  let prevStarted := (db.find? (fun j => j.job_id == job_id)).bind (fun j => j.started_at)
  let uv := mkUpdateValues kw prevStarted now
  if uvIsEmpty uv then { db := db, ok := false, events := [] }
  else
    let rowcount := db.countP (fun j => j.job_id == job_id)
    let db2 := db.map (fun j => if j.job_id == job_id then applyUpdateValues uv j else j)
    let events :=
      match kw.progress with
      | some p =>
          if rowcount == 0 then []
          else [{ status := pyOrStr kw.status "processing", job_id := job_id, progress := p }]
      | none => []
    { db := db2, ok := !(rowcount == 0), events := events }

/-- select_next embeds the selection query of fetch_next_job in shared_db.py:
rows with status queued and a requested task type, ordered by created_at
ascending, limit 1.  The fold keeps the earliest row in table order among
equal created_at values, matching a stable ORDER BY. -/
def select_next (db : List DBJob) (task_types : List String) : Option DBJob :=
  (db.filter (fun j => j.status == "queued" && task_types.contains j.task_type)).foldl
    (fun acc j =>
      match acc with
      | none => some j
      | some b => if j.created_at < b.created_at then some j else some b)
    none

/-- fetch_next_job embeds SQLAlchemyJobRepository.fetch_next_job of
shared_db.py: empty task_types returns absent; otherwise the selected row is
claimed by a conditional UPDATE guarded on status still being queued, the
row is re-read and converted.  Zero affected rows return absent. -/
def fetch_next_job (db : List DBJob) (task_types : List String) (now : Int) : FetchResult :=
  if task_types.isEmpty then { db := db, ret := Except.ok none }
  else
    match select_next db task_types with
    | none => { db := db, ret := Except.ok none }
    | some sel =>
        let claimP := fun (j : DBJob) => j.job_id == sel.job_id && j.status == "queued"
        let rowcount := db.countP claimP
        let db2 := db.map (fun j =>
          if claimP j then { j with status := "processing", started_at := some now } else j)
        if rowcount == 0 then { db := db2, ret := Except.ok none }
        else
          match db2.find? (fun j => j.job_id == sel.job_id) with
          | some row => { db := db2, ret := (db_to_library_job row).map some }
          | none => { db := db2, ret := Except.ok none }

/-- delete_job embeds SQLAlchemyJobRepository.delete_job of shared_db.py: the
row found by job_id is deleted, reporting whether one existed. -/
def delete_job (db : List DBJob) (job_id : String) : DeleteResult :=
  match db.find? (fun j => j.job_id == job_id) with
  | some _ => { db := db.eraseP (fun j => j.job_id == job_id), ok := true }
  | none => { db := db, ok := false }

end SharedDb

/-- SavedJobFile models the cl_ml_tools SavedJobFile result of a storage
save: relative path (as path segments), byte count, and SHA-256 hex
digest. -/
structure SavedJobFile where
  relative_path : List String
  size : Nat
  hash : String
deriving DecidableEq

/-- FileLike models the three accepted source kinds of save: raw bytes, a
filesystem path to copy from, and an async stream that yields chunks until
an empty read. -/
inductive FileLike where
  | bytes (content : List Nat)
  | path (p : List String)
  | stream (chunks : List (List Nat))

/-- FS models the filesystem visible to the storage services: a set of
existing directories and a map from file paths to byte contents, both keyed
by segment lists. -/
structure FS where
  dirs : List (List String)
  files : List (List String × List Nat)
deriving DecidableEq

/-- insertDir adds a directory entry if absent (mkdir with exist_ok). -/
def insertDir (fs : FS) (p : List String) : FS :=
  if fs.dirs.contains p then fs else { fs with dirs := p :: fs.dirs }

/-- ancestorsOf lists every nonempty leading segment run of a path, the path
itself included. -/
def ancestorsOf : List String → List (List String)
  | [] => []
  | x :: xs => [x] :: (ancestorsOf xs).map (fun p => x :: p)

/-- mkdirAll creates a directory and all its ancestors (mkdir with
parents=True and exist_ok=True). -/
def mkdirAll (fs : FS) (p : List String) : FS :=
  (ancestorsOf p).foldl insertDir fs

/-- leadsTo decides whether the first path is a leading segment run of the
second (the second lies inside the subtree of the first). -/
def leadsTo : List String → List String → Bool
  | [], _ => true
  | _ :: _, [] => false
  | a :: as, b :: bs => a == b && leadsTo as bs

/-- readFile looks up the content stored at a path. -/
def readFile (fs : FS) (p : List String) : Option (List Nat) :=
  (fs.files.find? (fun kv => kv.1 == p)).map (fun kv => kv.2)

/-- writeFile stores content at a path, replacing any previous content. -/
def writeFile (fs : FS) (p : List String) (c : List Nat) : FS :=
  { fs with files := (p, c) :: fs.files.filter (fun kv => !(kv.1 == p)) }

/-- parentDirOk checks the parent directory of a path exists, as the
operating system requires before a file can be created there. -/
def parentDirOk (fs : FS) (p : List String) : Bool :=
  fs.dirs.contains p.dropLast

/-- hasherUpdate models hashlib hasher.update: the hasher state is the byte
sequence absorbed so far. -/
def hasherUpdate (h chunk : List Nat) : List Nat := h ++ chunk

/-- storageChunkSize is the 1 MiB _CHUNK_SIZE constant shared by both
storage snapshots. -/
def storageChunkSize : Nat := 1048576

namespace FileStorageSvc

/-- create_directory embeds FileStorageService.create_directory of
file_storage.py: jobs/job_id with parents, then input and output inside
it. -/
def create_directory (fs : FS) (base : List String) (job_id : String) : FS :=
  let jd := base ++ ["jobs", job_id]
  let fs := mkdirAll fs jd
  let fs := insertDir fs (jd ++ ["input"])
  insertDir fs (jd ++ ["output"])

/-- remove embeds FileStorageService.remove of file_storage.py: if the job
directory exists its whole subtree is deleted and true returned, otherwise
false. -/
def remove (fs : FS) (base : List String) (job_id : String) : FS × Bool :=
  let jd := base ++ ["jobs", job_id]
  if fs.dirs.contains jd then
    ({ dirs := fs.dirs.filter (fun d => !(leadsTo jd d)),
       files := fs.files.filter (fun kv => !(leadsTo jd kv.1)) }, true)
  else (fs, false)

/-- resolve_path embeds FileStorageService.resolve_path of file_storage.py:
pure path computation, the job root when no relative path is given. -/
def resolve_path (base : List String) (job_id : String) (rel : Option (List String)) :
    List String :=
  match rel with
  | none => base ++ ["jobs", job_id]
  | some r => base ++ ["jobs", job_id] ++ r

/-- save embeds FileStorageService.save of file_storage.py.  The three
branches (bytes, path copy, stream) each hash incrementally exactly the
bytes persisted: the bytes branch absorbs the buffer whole, the copy branch
re-reads the copied file in 1 MiB chunks, the stream branch absorbs each
chunk read until an empty read stops the loop.  A missing copy source or a
missing parent directory (with mkdirs false) is a filesystem error, modelled
as none. -/
def save (fs : FS) (base : List String) (job_id : String) (rel : List String)
    (file : FileLike) (mkdirs : Bool) : Option (FS × SavedJobFile) :=
  let target := base ++ ["jobs", job_id] ++ rel
  let fs := if mkdirs then mkdirAll fs target.dropLast else fs
  if parentDirOk fs target then
    match file with
    | FileLike.bytes content =>
        let absorbed := hasherUpdate [] content
        some (writeFile fs target content,
          { relative_path := rel, size := content.length, hash := sha256Hex absorbed })
    | FileLike.path p =>
        match readFile fs p with
        | none => none
        | some content =>
            let fs := writeFile fs target content
            let absorbed := (chunksOfLen storageChunkSize content).foldl hasherUpdate []
            some (fs,
              { relative_path := rel, size := content.length, hash := sha256Hex absorbed })
    | FileLike.stream cs =>
        let delivered := cs.takeWhile (fun c => !c.isEmpty)
        let written := delivered.foldl (fun acc c => acc ++ c) []
        let absorbed := delivered.foldl hasherUpdate []
        let size := delivered.foldl (fun n c => n + c.length) 0
        some (writeFile fs target written,
          { relative_path := rel, size := size, hash := sha256Hex absorbed })
  else none

end FileStorageSvc

namespace JobStorageSvc

/-- create_directory embeds JobStorageService.create_directory of
job_storage.py: jobs/job_id with parents, then input and output inside
it. -/
def create_directory (fs : FS) (base : List String) (job_id : String) : FS :=
  let jd := base ++ ["jobs", job_id]
  let fs := mkdirAll fs jd
  let fs := insertDir fs (jd ++ ["input"])
  insertDir fs (jd ++ ["output"])

/-- remove embeds JobStorageService.remove of job_storage.py: if the job
directory exists its whole subtree is deleted and true returned, otherwise
false. -/
def remove (fs : FS) (base : List String) (job_id : String) : FS × Bool :=
  let jd := base ++ ["jobs", job_id]
  if fs.dirs.contains jd then
    ({ dirs := fs.dirs.filter (fun d => !(leadsTo jd d)),
       files := fs.files.filter (fun kv => !(leadsTo jd kv.1)) }, true)
  else (fs, false)

/-- resolve_path embeds JobStorageService.resolve_path of job_storage.py:
pure path computation, the job root when no relative path is given. -/
def resolve_path (base : List String) (job_id : String) (rel : Option (List String)) :
    List String :=
  match rel with
  | none => base ++ ["jobs", job_id]
  | some r => base ++ ["jobs", job_id] ++ r

/-- save embeds JobStorageService.save of job_storage.py.  The three
branches (bytes, path copy, stream) each hash incrementally exactly the
bytes persisted: the bytes branch absorbs the buffer whole, the copy branch
re-reads the copied file in 1 MiB chunks, the stream branch absorbs each
chunk read until an empty read stops the loop.  A missing copy source or a
missing parent directory (with mkdirs false) is a filesystem error, modelled
as none. -/
def save (fs : FS) (base : List String) (job_id : String) (rel : List String)
    (file : FileLike) (mkdirs : Bool) : Option (FS × SavedJobFile) :=
  let target := base ++ ["jobs", job_id] ++ rel
  let fs := if mkdirs then mkdirAll fs target.dropLast else fs
  if parentDirOk fs target then
    match file with
    | FileLike.bytes content =>
        let absorbed := hasherUpdate [] content
        some (writeFile fs target content,
          { relative_path := rel, size := content.length, hash := sha256Hex absorbed })
    | FileLike.path p =>
        match readFile fs p with
        | none => none
        | some content =>
            let fs := writeFile fs target content
            let absorbed := (chunksOfLen storageChunkSize content).foldl hasherUpdate []
            some (fs,
              { relative_path := rel, size := content.length, hash := sha256Hex absorbed })
    | FileLike.stream cs =>
        let delivered := cs.takeWhile (fun c => !c.isEmpty)
        let written := delivered.foldl (fun acc c => acc ++ c) []
        let absorbed := delivered.foldl hasherUpdate []
        let size := delivered.foldl (fun n c => n + c.length) 0
        some (writeFile fs target written,
          { relative_path := rel, size := size, hash := sha256Hex absorbed })
  else none

end JobStorageSvc

/-- JobRecord models the cl_ml_tools Pydantic JobRecord consumed by
job_translator.job_record_to_db_job; status is the string value of the
JobStatus enum member. -/
structure JobRecord where
  job_id : String
  task_type : String
  params : Json
  output : Option Json
  status : String
  progress : Int
  error_message : Option String

/-- ModelsJob models the SQLAlchemy models.Job row as constructed by
job_record_to_db_job (the snapshot whose params and output columns hold JSON
values directly). -/
structure ModelsJob where
  job_id : String
  task_type : String
  params : Json
  status : String
  progress : Int
  output : Option Json
  error_message : Option String
  created_at : Int
  priority : Int
  retry_count : Int
  max_retries : Int
  created_by : Option String

/-- job_record_to_db_job embeds job_translator.job_record_to_db_job: all
record fields are copied, created_at is stamped, and priority is set with
the Python expression priority or 0. -/
def job_record_to_db_job (r : JobRecord) (created_by : Option String)
    (priority : Option Int) (now : Int) : ModelsJob :=
  { job_id := r.job_id
    task_type := r.task_type
    params := r.params
    status := r.status
    progress := r.progress
    output := r.output
    error_message := r.error_message
    created_at := now
    priority := pyOrInt priority 0
    retry_count := 0
    max_retries := 3
    created_by := created_by }

/-- WorkerPc is the program counter of one worker running fetch_next_job on
the shared single-job table: start is before the SELECT, claiming is between
the SELECT (which observed the queued job) and the conditional UPDATE, and
done r records the returned value (r true means the job was returned as
processing, r false means absent). -/
inductive WorkerPc where
  | start
  | claiming
  | done (won : Bool)
deriving DecidableEq

/-- isDone tests whether a worker has returned from its fetch_next_job
call. -/
def isDone : WorkerPc → Bool
  | WorkerPc.done _ => true
  | _ => false

/-- ClaimRace is the interleaving state of n workers racing on one queued
job: queued is the persisted status of the job row (true while still
queued), and pc gives each worker position.  Each database statement (the
SELECT and the guarded UPDATE) is atomic, so an execution is an arbitrary
interleaving of these per-worker steps. -/
structure ClaimRace (n : Nat) where
  queued : Bool
  pc : Fin n → WorkerPc

/-- claimStep runs the next atomic statement of worker i, following
fetch_next_job of adapters.py: the SELECT either observes the queued row
(moving to claiming) or observes none and returns absent; the UPDATE guarded
by status still queued either claims the row (returning it as processing) or
affects zero rows and returns absent.  Scheduling a finished worker changes
nothing. -/
def claimStep {n : Nat} (s : ClaimRace n) (i : Fin n) : ClaimRace n :=
  match s.pc i with
  | WorkerPc.start =>
      if s.queued then { s with pc := Function.update s.pc i WorkerPc.claiming }
      else { s with pc := Function.update s.pc i (WorkerPc.done false) }
  | WorkerPc.claiming =>
      if s.queued then
        { queued := false, pc := Function.update s.pc i (WorkerPc.done true) }
      else { s with pc := Function.update s.pc i (WorkerPc.done false) }
  | WorkerPc.done _ => s

/-- initRace is the initial state: the job is queued and every worker is
about to issue its SELECT. -/
def initRace (n : Nat) : ClaimRace n :=
  { queued := true, pc := fun _ => WorkerPc.start }

/-- runRace executes a schedule, an arbitrary interleaving given as the list
of worker indices in the order their next atomic statement runs. -/
def runRace (n : Nat) (sched : List (Fin n)) : ClaimRace n :=
  sched.foldl claimStep (initRace n)

/-- mkUVSpec is a field-by-field characterization of the update_values dict:
each key is governed by its own kwargs entry, with the explicit started_at
and completed_at kwargs overriding the automatic status-driven stamps. -/
def mkUVSpec (kw : UpdateKwargs) (prevStarted : Option Int) (now : Int) : UpdateValues :=
  { status := kw.status
    started_at :=
      match kw.started_at with
      | some v => some v
      | none =>
          match kw.status with
          | some s =>
              if s == "processing" then
                match prevStarted with
                | none => some (some now)
                | some _ => none
              else none
          | none => none
    completed_at :=
      match kw.completed_at with
      | some v => some v
      | none =>
          match kw.status with
          | some s =>
              if s == "processing" then none
              else if s == "completed" || s == "error" then some (some now)
              else none
          | none => none
    progress := kw.progress
    task_output := kw.task_output.map pyDumpsOrNone
    error_message := kw.error_message
    retry_count := kw.retry_count }

/-- mkUpdateValues agrees with its field-by-field characterization. -/
theorem mkUpdateValues_eq_spec (kw : UpdateKwargs) (prev : Option Int) (now : Int) :
    Adapters.mkUpdateValues kw prev now = mkUVSpec kw prev now := by
  obtain ⟨st, pr, tko, em, rc, sa, ca⟩ := kw
  cases st <;> cases pr <;> cases tko <;> cases em <;> cases rc <;> cases sa <;>
    cases ca <;> cases prev <;>
      simp only [Adapters.mkUpdateValues, mkUVSpec] <;>
        first
          | rfl
          | (split_ifs <;> rfl)

/-- find? after a guarded per-row map commutes with find? on the original
table when the rewrite preserves the searched key. -/
theorem find?_update_map (db : List DBJob) (id : String) (f : DBJob → DBJob)
    (hf : ∀ j, (f j).job_id = j.job_id) :
    (db.map (fun j => if j.job_id == id then f j else j)).find? (fun j => j.job_id == id)
      = (db.find? (fun j => j.job_id == id)).map f := by
  induction db with
  | nil => rfl
  | cons a l ih =>
      by_cases h : (a.job_id == id) = true
      · have hfa : ((f a).job_id == id) = true := by
          rw [beq_iff_eq] at h ⊢
          rw [hf a]
          exact h
        simp only [List.map_cons, List.find?_cons, h, hfa, reduceIte]
        simp
      · rw [Bool.not_eq_true] at h
        simp only [List.map_cons, h, Bool.false_eq_true, if_false, List.find?_cons]
        exact ih

/-- find? after a conditionally guarded per-row map commutes with find? on
the original table, carrying the guard into the result. -/
theorem find?_update_map_cond (db : List DBJob) (id : String) (f : DBJob → DBJob)
    (hf : ∀ j, (f j).job_id = j.job_id) (q : DBJob → Bool) :
    (db.map (fun j => if j.job_id == id && q j then f j else j)).find?
        (fun j => j.job_id == id)
      = (db.find? (fun j => j.job_id == id)).map (fun j => if q j then f j else j) := by
  induction db with
  | nil => rfl
  | cons a l ih =>
      by_cases h : (a.job_id == id) = true
      · by_cases hq : q a = true
        · have hfa : ((f a).job_id == id) = true := by
            rw [beq_iff_eq] at h ⊢
            rw [hf a]
            exact h
          simp only [List.map_cons, List.find?_cons, h, hq, Bool.and_self, hfa, reduceIte]
          simp [hq]
        · rw [Bool.not_eq_true] at hq
          simp only [List.map_cons, List.find?_cons, h, hq, Bool.and_false,
            Bool.false_eq_true, if_false, reduceIte]
          simp [hq]
      · rw [Bool.not_eq_true] at h
        simp only [List.map_cons, h, Bool.false_and, Bool.false_eq_true, if_false,
          List.find?_cons]
        exact ih

/-- applyUpdateValues never changes the job id of a row. -/
theorem applyUpdateValues_job_id (uv : UpdateValues) (j : DBJob) :
    (applyUpdateValues uv j).job_id = j.job_id := rfl

/-- RaceInv is the inductive invariant of the claim race: while the row is
still queued nobody has returned, and once it is claimed there is a unique
worker that returned the job. -/
def RaceInv {n : Nat} (s : ClaimRace n) : Prop :=
  (s.queued = true ∧ ∀ i, s.pc i = WorkerPc.start ∨ s.pc i = WorkerPc.claiming)
    ∨ (s.queued = false ∧ ∃ w, s.pc w = WorkerPc.done true
        ∧ ∀ j, j ≠ w → s.pc j ≠ WorkerPc.done true)

/-- One atomic step preserves the race invariant. -/
theorem claimStep_inv {n : Nat} (s : ClaimRace n) (i : Fin n) (h : RaceInv s) :
    RaceInv (claimStep s i) := by
  rcases h with ⟨hq, hpc⟩ | ⟨hq, w, hw, huniq⟩
  · rcases hpc i with hi | hi
    · left
      refine ⟨by simp [claimStep, hi, hq], fun j => ?_⟩
      by_cases hj : j = i
      · subst hj
        right
        simp [claimStep, hi, hq, Function.update]
      · have := hpc j
        simpa [claimStep, hi, hq, Function.update_noteq hj] using this
    · right
      refine ⟨by simp [claimStep, hi, hq], i, by simp [claimStep, hi, hq], fun j hj => ?_⟩
      have hpcj : claimStep s i = { queued := false, pc := Function.update s.pc i (WorkerPc.done true) } := by
        simp [claimStep, hi, hq]
      rw [hpcj]
      simp only [Function.update_noteq hj]
      rcases hpc j with hpj | hpj <;> simp [hpj]
  · have hne : i ≠ w ∨ s.pc i = WorkerPc.done true := by
      by_cases hiw : i = w
      · right
        rw [hiw, hw]
      · left
        exact hiw
    rcases hcase : s.pc i with _ | _ | r
    · right
      refine ⟨by simp [claimStep, hcase, hq], w, ?_, fun j hj => ?_⟩
      · have hiw : i ≠ w := by
          intro hiw
          rw [hiw, hw] at hcase
          cases hcase
        simp [claimStep, hcase, hq, Function.update_noteq (Ne.symm hiw), hw]
      · by_cases hji : j = i
        · subst hji
          simp [claimStep, hcase, hq, Function.update]
        · simp [claimStep, hcase, hq, Function.update_noteq hji]
          exact huniq j hj
    · right
      refine ⟨by simp [claimStep, hcase, hq], w, ?_, fun j hj => ?_⟩
      · have hiw : i ≠ w := by
          intro hiw
          rw [hiw, hw] at hcase
          cases hcase
        simp [claimStep, hcase, hq, Function.update_noteq (Ne.symm hiw), hw]
      · by_cases hji : j = i
        · subst hji
          simp [claimStep, hcase, hq, Function.update]
        · simp [claimStep, hcase, hq, Function.update_noteq hji]
          exact huniq j hj
    · right
      refine ⟨by simp [claimStep, hcase, hq], w, ?_, fun j hj => ?_⟩
      · simp [claimStep, hcase, hw]
      · simp [claimStep, hcase]
        exact huniq j hj

/-- Running any schedule from an invariant state lands in an invariant
state. -/
theorem foldl_claimStep_inv {n : Nat} (sched : List (Fin n)) (s : ClaimRace n)
    (h : RaceInv s) : RaceInv (sched.foldl claimStep s) := by
  induction sched generalizing s with
  | nil => exact h
  | cons i rest ih => exact ih _ (claimStep_inv s i h)

/-- The race invariant holds after any schedule from the initial state. -/
theorem runRace_inv (n : Nat) (sched : List (Fin n)) : RaceInv (runRace n sched) := by
  unfold runRace
  apply foldl_claimStep_inv
  left
  exact ⟨rfl, fun i => Or.inl rfl⟩

/-- C1: for any positive number of workers racing on the same single queued
job and any interleaving of their atomic statements after which every worker
has returned from fetch_next_job, exactly one worker returns the job (as
processing) and every other worker returns absent. -/
theorem fetch_next_job_claim_exclusivity (n : Nat) (hn : 0 < n)
    (sched : List (Fin n)) (hdone : ∀ i, isDone ((runRace n sched).pc i) = true) :
    ∃ w, (runRace n sched).pc w = WorkerPc.done true
      ∧ ∀ j, j ≠ w → (runRace n sched).pc j = WorkerPc.done false := by
  rcases runRace_inv n sched with ⟨hq, hpc⟩ | ⟨hq, w, hw, huniq⟩
  · exfalso
    have h0 := hdone ⟨0, hn⟩
    rcases hpc ⟨0, hn⟩ with h | h <;> rw [h] at h0 <;> simp [isDone] at h0
  · refine ⟨w, hw, fun j hj => ?_⟩
    have hdj := hdone j
    rcases hcase : (runRace n sched).pc j with _ | _ | r
    · rw [hcase] at hdj
      simp [isDone] at hdj
    · rw [hcase] at hdj
      simp [isDone] at hdj
    · cases r
      · rfl
      · exact absurd hcase (huniq j hj)

/-- C1 witness: two workers interleaved select-select-claim-claim; worker 0
gets the job and worker 1 returns absent. -/
theorem fetch_next_job_claim_exclusivity_witness :
    0 < 2 ∧ ∃ w, (runRace 2 [0, 1, 0, 1]).pc w = WorkerPc.done true
      ∧ ∀ j, j ≠ w → (runRace 2 [0, 1, 0, 1]).pc j = WorkerPc.done false :=
  ⟨by decide, fetch_next_job_claim_exclusivity 2 (by decide) [0, 1, 0, 1] (by decide)⟩

/-- Presence of a status key makes the computed update set nonempty. -/
theorem mkUV_not_empty_status (kw : UpdateKwargs) (prev : Option Int) (now : Int)
    (s : String) (hs : kw.status = some s) :
    uvIsEmpty (Adapters.mkUpdateValues kw prev now) = false := by
  rw [mkUpdateValues_eq_spec]
  simp [uvIsEmpty, mkUVSpec, hs]

/-- With a terminal status in kwargs and no explicit completed_at override,
the computed update set stamps completed_at with the current time. -/
theorem mkUV_completed_at (kw : UpdateKwargs) (prev : Option Int) (now : Int)
    (s : String) (hs : kw.status = some s) (hterm : s = "completed" ∨ s = "error")
    (hnc : kw.completed_at = none) :
    (Adapters.mkUpdateValues kw prev now).completed_at = some (some now) := by
  rw [mkUpdateValues_eq_spec]
  rcases hterm with h | h <;> subst h <;> simp [mkUVSpec, hs, hnc]

/-- update_job with a nonempty update set rewrites exactly the rows matching
the job id, so a find? on the job id returns the rewritten row. -/
theorem update_job_find (db : List DBJob) (id : String) (kw : UpdateKwargs) (now : Int)
    (hne : uvIsEmpty (Adapters.mkUpdateValues kw
        ((db.find? (fun j => j.job_id == id)).bind (fun j => j.started_at)) now) = false) :
    (Adapters.update_job db id kw now).db.find? (fun j => j.job_id == id)
      = (db.find? (fun j => j.job_id == id)).map
          (applyUpdateValues (Adapters.mkUpdateValues kw
            ((db.find? (fun j => j.job_id == id)).bind (fun j => j.started_at)) now)) := by
  unfold Adapters.update_job
  rw [if_neg (by simp [hne])]
  exact find?_update_map db id _ (applyUpdateValues_job_id _)

/-- jobC2 is a job row whose first terminal update already stamped
completed_at at time 5. -/
def jobC2 : DBJob :=
  { job_id := "j1", task_type := "t", params := "", status := "completed",
    progress := 0, created_at := 0, started_at := some 1, completed_at := some 5,
    task_output := none, error_message := none, retry_count := 0, max_retries := 3,
    created_by := none, priority := none }

/-- C2 counterexample: a second update_job call with a terminal status at
time 9 overwrites the previously stored completed_at value 5, so completed_at
is not left unchanged by the second terminal call. -/
theorem completed_at_overwritten_cex :
    ((Adapters.update_job [jobC2] "j1" { status := some "completed" } 9).db.find?
        (fun j => j.job_id == "j1")).map DBJob.completed_at = some (some 9)
    ∧ jobC2.completed_at = some 5
    ∧ ¬ (some (9 : Int) = some (5 : Int)) :=
  ⟨rfl, rfl, by decide⟩

/-- C2 (amended): an update_job call whose kwargs carry a terminal status
(completed or error) and no explicit completed_at override stamps
completed_at with the time of that call on the matched row, overwriting any
previously stored value; a second terminal call therefore re-stamps it with
the later time instead of leaving it unchanged. -/
theorem update_job_terminal_stamps_completed_at (db : List DBJob) (id : String)
    (kw : UpdateKwargs) (now : Int) (s : String) (row : DBJob)
    (hs : kw.status = some s) (hterm : s = "completed" ∨ s = "error")
    (hnc : kw.completed_at = none)
    (hfind : db.find? (fun j => j.job_id == id) = some row) :
    ((Adapters.update_job db id kw now).db.find? (fun j => j.job_id == id)).map
        DBJob.completed_at = some (some now) := by
  rw [update_job_find db id kw now (mkUV_not_empty_status kw _ now s hs), hfind]
  show some ((Adapters.mkUpdateValues kw _ now).completed_at.getD row.completed_at) = _
  rw [mkUV_completed_at kw _ now s hs hterm hnc]
  rfl

/-- C2 witness: a concrete second terminal update at time 9 on a row whose
completed_at was 5 yields completed_at 9. -/
theorem update_job_terminal_stamps_completed_at_witness :
    ((Adapters.update_job [jobC2] "j1" { status := some "error" } 9).db.find?
        (fun j => j.job_id == "j1")).map DBJob.completed_at = some (some 9) :=
  update_job_terminal_stamps_completed_at [jobC2] "j1" _ 9 "error" jobC2 rfl
    (Or.inr rfl) rfl rfl

/-- With status processing in kwargs, no explicit started_at override and a
previously stored started_at, the computed update set does not touch
started_at. -/
theorem mkUV_started_at_kept (kw : UpdateKwargs) (t : Int) (now : Int)
    (hs : kw.status = some "processing") (hna : kw.started_at = none) :
    (Adapters.mkUpdateValues kw (some t) now).started_at = none := by
  rw [mkUpdateValues_eq_spec]
  simp [mkUVSpec, hs, hna]

/-- With status processing in kwargs, no explicit started_at override and no
previously stored started_at, the computed update set stamps started_at with
the current time. -/
theorem mkUV_started_at_stamped (kw : UpdateKwargs) (now : Int)
    (hs : kw.status = some "processing") (hna : kw.started_at = none) :
    (Adapters.mkUpdateValues kw none now).started_at = some (some now) := by
  rw [mkUpdateValues_eq_spec]
  simp [mkUVSpec, hs, hna]

/-- C4: an update_job call that sets status to processing leaves an already
set started_at unchanged, and assigns started_at only on the first
transition into processing, when it is currently unset. -/
theorem started_at_set_once (db : List DBJob) (id : String) (now : Int) (row : DBJob)
    (hfind : db.find? (fun j => j.job_id == id) = some row) :
    (∀ t : Int, row.started_at = some t →
      ((Adapters.update_job db id { status := some "processing" } now).db.find?
          (fun j => j.job_id == id)).map DBJob.started_at = some (some t))
    ∧ (row.started_at = none →
      ((Adapters.update_job db id { status := some "processing" } now).db.find?
          (fun j => j.job_id == id)).map DBJob.started_at = some (some now)) := by
  constructor
  · intro t ht
    rw [update_job_find db id _ now (mkUV_not_empty_status _ _ now _ rfl), hfind]
    show some ((Adapters.mkUpdateValues { status := some "processing" }
      row.started_at now).started_at.getD row.started_at) = _
    rw [ht, mkUV_started_at_kept _ t now rfl rfl]
    rfl
  · intro ht
    rw [update_job_find db id _ now (mkUV_not_empty_status _ _ now _ rfl), hfind]
    show some ((Adapters.mkUpdateValues { status := some "processing" }
      row.started_at now).started_at.getD row.started_at) = _
    rw [ht, mkUV_started_at_stamped _ now rfl rfl]
    rfl

/-- jobC4 is a job row already in processing with started_at stamped at
time 7. -/
def jobC4 : DBJob :=
  { job_id := "j4", task_type := "t", params := "", status := "processing",
    progress := 0, created_at := 0, started_at := some 7, completed_at := none,
    task_output := none, error_message := none, retry_count := 0, max_retries := 3,
    created_by := none, priority := none }

/-- C4 witness: re-setting status to processing at time 9 keeps the stored
started_at 7. -/
theorem started_at_set_once_witness :
    ((Adapters.update_job [jobC4] "j4" { status := some "processing" } 9).db.find?
        (fun j => j.job_id == "j4")).map DBJob.started_at = some (some 7) :=
  (started_at_set_once [jobC4] "j4" 9 jobC4 rfl).1 7 rfl

/-- Presence of any recognized kwargs field makes the computed update set
nonempty. -/
theorem mkUV_not_empty_of_field (kw : UpdateKwargs) (prev : Option Int) (now : Int)
    (h : kw.status.isSome = true ∨ kw.progress.isSome = true
      ∨ kw.task_output.isSome = true ∨ kw.error_message.isSome = true
      ∨ kw.retry_count.isSome = true ∨ kw.started_at.isSome = true
      ∨ kw.completed_at.isSome = true) :
    uvIsEmpty (Adapters.mkUpdateValues kw prev now) = false := by
  rw [mkUpdateValues_eq_spec]
  rcases h with h | h | h | h | h | h | h <;>
    obtain ⟨x, hx⟩ := Option.isSome_iff_exists.mp h <;>
      simp [uvIsEmpty, mkUVSpec, hx]

/-- update_job with a nonempty update set reports success exactly when some
row matched the job id. -/
theorem update_job_ok_eq (db : List DBJob) (id : String) (kw : UpdateKwargs) (now : Int)
    (hne : uvIsEmpty (Adapters.mkUpdateValues kw
        ((db.find? (fun j => j.job_id == id)).bind (fun j => j.started_at)) now) = false) :
    (Adapters.update_job db id kw now).ok
      = !(db.countP (fun j => j.job_id == id) == 0) := by
  unfold Adapters.update_job
  rw [if_neg (by simp [hne])]

/-- update_job with a nonempty update set emits a broadcast exactly when a
row matched and progress was supplied. -/
theorem update_job_events_eq (db : List DBJob) (id : String) (kw : UpdateKwargs) (now : Int)
    (hne : uvIsEmpty (Adapters.mkUpdateValues kw
        ((db.find? (fun j => j.job_id == id)).bind (fun j => j.started_at)) now) = false) :
    (Adapters.update_job db id kw now).events
      = match kw.progress with
        | some p =>
            if db.countP (fun j => j.job_id == id) == 0 then []
            else [{ status := pyOrStr kw.status "processing", job_id := id, progress := p }]
        | none => [] := by
  unfold Adapters.update_job
  rw [if_neg (by simp [hne])]

/-- A table entry found by find? forces a positive countP for the same
predicate. -/
theorem countP_ne_zero_of_find? (db : List DBJob) (id : String) (row : DBJob)
    (hfind : db.find? (fun j => j.job_id == id) = some row) :
    (db.countP (fun j => j.job_id == id) == 0) = false := by
  have hmem := List.mem_of_find?_eq_some hfind
  have hp := List.find?_some hfind
  have hpos : 0 < db.countP (fun j => j.job_id == id) := by
    rw [List.countP_pos_iff]
    exact ⟨row, hmem, hp⟩
  simp [Nat.pos_iff_ne_zero.mp hpos]

/-- C5: update_job returns false when no row matches the job id, returns
true for an existing job once at least one recognized field (status,
progress, task_output, error_message, retry_count, started_at,
completed_at) is supplied, and returns false when no recognized field is
supplied regardless of the table contents. -/
theorem update_job_return_value (db : List DBJob) (id : String) (kw : UpdateKwargs)
    (now : Int) :
    (db.find? (fun j => j.job_id == id) = none →
      (Adapters.update_job db id kw now).ok = false)
    ∧ ((db.find? (fun j => j.job_id == id)).isSome = true →
      (kw.status.isSome = true ∨ kw.progress.isSome = true
        ∨ kw.task_output.isSome = true ∨ kw.error_message.isSome = true
        ∨ kw.retry_count.isSome = true ∨ kw.started_at.isSome = true
        ∨ kw.completed_at.isSome = true) →
      (Adapters.update_job db id kw now).ok = true)
    ∧ (kw = {} → (Adapters.update_job db id kw now).ok = false) := by
  refine ⟨fun hnone => ?_, fun hsome hfield => ?_, fun hkw => ?_⟩
  · by_cases he : uvIsEmpty (Adapters.mkUpdateValues kw
        ((db.find? (fun j => j.job_id == id)).bind (fun j => j.started_at)) now) = true
    · unfold Adapters.update_job
      rw [if_pos (by simp [he])]
    · rw [Bool.not_eq_true] at he
      rw [update_job_ok_eq db id kw now he]
      have hz : db.countP (fun j => j.job_id == id) = 0 := by
        rw [List.countP_eq_zero]
        intro a ha
        have := List.find?_eq_none.mp hnone a ha
        simpa using this
      simp [hz]
  · obtain ⟨r, hr⟩ := Option.isSome_iff_exists.mp hsome
    rw [update_job_ok_eq db id kw now (mkUV_not_empty_of_field kw _ now hfield)]
    rw [countP_ne_zero_of_find? db id r hr]
    rfl
  · subst hkw
    rfl

/-- jobC5 is a queued job row used to exercise the update_job return value
semantics on concrete inputs. -/
def jobC5 : DBJob :=
  { job_id := "j5", task_type := "t", params := "", status := "queued",
    progress := 0, created_at := 0, started_at := none, completed_at := none,
    task_output := none, error_message := none, retry_count := 0, max_retries := 3,
    created_by := none, priority := none }

/-- C5 witness: concrete calls exercising all three return-value clauses. -/
theorem update_job_return_value_witness :
    (Adapters.update_job [] "jx" { progress := some 1 } 0).ok = false
    ∧ (Adapters.update_job [jobC5] "j5" { progress := some 50 } 0).ok = true
    ∧ (Adapters.update_job [jobC5] "j5" {} 0).ok = false :=
  ⟨(update_job_return_value [] "jx" { progress := some 1 } 0).1 rfl,
   (update_job_return_value [jobC5] "j5" { progress := some 50 } 0).2.1 rfl
     (Or.inr (Or.inl rfl)),
   (update_job_return_value [jobC5] "j5" {} 0).2.2 rfl⟩

/-- jobLibC3 is a library job in its initial queued state. -/
def jobLibC3 : LibraryJob :=
  { job_id := "j3", task_type := "t", params := Json.obj [], status := "queued",
    progress := 0, task_output := none, error_message := none }

/-- C3 counterexample: add_job persists the row (the table grows) but the
call emits no broadcast event at all, refuting the claim that every
state-affecting call, add_job in particular, emits a broadcast event with
the initial status and progress. -/
theorem add_job_no_broadcast_cex :
    (Adapters.add_job [] jobLibC3 none none 0).events = []
    ∧ (Adapters.add_job [] jobLibC3 none none 0).db.length = 1 :=
  ⟨rfl, rfl⟩

/-- C3 (amended): add_job persists the row and emits no broadcast event; of
the queue calls only update_job emits one, exactly when the update matched
an existing row and progress was among the supplied fields, carrying the
supplied status (defaulting to processing) and the progress value: a
matched row with supplied progress emits the one event, a supplied progress
on an unmatched id emits nothing, and an absent progress emits nothing. -/
theorem broadcast_only_on_matched_progress_update (db : List DBJob) (job : LibraryJob)
    (cb : Option String) (p : Option Int) (now : Int) (id : String) (kw : UpdateKwargs)
    (pr : Int) (row : DBJob) :
    (Adapters.add_job db job cb p now).events = []
    ∧ (kw.progress = some pr → db.find? (fun j => j.job_id == id) = some row →
        (Adapters.update_job db id kw now).events
          = [{ status := pyOrStr kw.status "processing", job_id := id, progress := pr }])
    ∧ (kw.progress = some pr → db.find? (fun j => j.job_id == id) = none →
        (Adapters.update_job db id kw now).events = [])
    ∧ (kw.progress = none → (Adapters.update_job db id kw now).events = []) := by
  refine ⟨rfl, fun hp hfind => ?_, fun hp hnone => ?_, fun hp => ?_⟩
  · rw [update_job_events_eq db id kw now
      (mkUV_not_empty_of_field kw _ now (Or.inr (Or.inl (by rw [hp]; rfl))))]
    rw [hp, countP_ne_zero_of_find? db id row hfind]
    rfl
  · rw [update_job_events_eq db id kw now
      (mkUV_not_empty_of_field kw _ now (Or.inr (Or.inl (by rw [hp]; rfl))))]
    rw [hp]
    have hz : db.countP (fun j => j.job_id == id) = 0 := by
      rw [List.countP_eq_zero]
      intro a ha
      have := List.find?_eq_none.mp hnone a ha
      simpa using this
    simp [hz]
  · by_cases he : uvIsEmpty (Adapters.mkUpdateValues kw
        ((db.find? (fun j => j.job_id == id)).bind (fun j => j.started_at)) now) = true
    · unfold Adapters.update_job
      rw [if_pos (by simp [he])]
    · rw [Bool.not_eq_true] at he
      rw [update_job_events_eq db id kw now he, hp]

/-- jobC3r is a queued row for exercising the broadcast conditions on
concrete inputs. -/
def jobC3r : DBJob :=
  { job_id := "j3", task_type := "t", params := "", status := "queued",
    progress := 0, created_at := 0, started_at := none, completed_at := none,
    task_output := none, error_message := none, retry_count := 0, max_retries := 3,
    created_by := none, priority := none }

/-- C3 witness: a concrete add_job emits nothing, a progress update on an
existing row emits one event, a progress update on a missing id emits
nothing, and a progress-free update emits nothing. -/
theorem broadcast_only_on_matched_progress_update_witness :
    (Adapters.add_job [] jobLibC3 none none 0).events = []
    ∧ (Adapters.update_job [jobC3r] "j3" { progress := some 50 } 0).events
        = [{ status := "processing", job_id := "j3", progress := 50 }]
    ∧ (Adapters.update_job [jobC3r] "nobody" { progress := some 7 } 0).events = []
    ∧ (Adapters.update_job [jobC3r] "j3" { status := some "completed" } 0).events = [] :=
  ⟨(broadcast_only_on_matched_progress_update [] jobLibC3 none none 0 "j3" {} 0 jobC3r).1,
   (broadcast_only_on_matched_progress_update [jobC3r] jobLibC3 none none 0 "j3"
      { progress := some 50 } 50 jobC3r).2.1 rfl rfl,
   (broadcast_only_on_matched_progress_update [jobC3r] jobLibC3 none none 0 "nobody"
      { progress := some 7 } 7 jobC3r).2.2.1 rfl rfl,
   (broadcast_only_on_matched_progress_update [jobC3r] jobLibC3 none none 0 "j3"
      { status := some "completed" } 0 jobC3r).2.2.2 rfl⟩

/-- The selection fold returns either its accumulator or a list element, and
the returned created_at is a lower bound for the accumulator and every list
element. -/
theorem select_fold_spec (l : List DBJob) :
    ∀ (acc : Option DBJob) (res : DBJob),
      l.foldl (fun acc j =>
        match acc with
        | none => some j
        | some b => if j.created_at < b.created_at then some j else some b) acc = some res →
      (acc = some res ∨ res ∈ l)
      ∧ (∀ b, acc = some b → res.created_at ≤ b.created_at)
      ∧ (∀ c ∈ l, res.created_at ≤ c.created_at) := by
  induction l with
  | nil =>
      intro acc res h
      have h0 : acc = some res := h
      refine ⟨Or.inl h0, fun b hb => ?_, fun c hc => absurd hc (List.not_mem_nil c)⟩
      rw [hb] at h0
      cases h0
      exact le_refl _
  | cons a l ih =>
      intro acc res h
      rw [List.foldl_cons] at h
      rcases acc with _ | b
      · have h' : l.foldl (fun acc j =>
            match acc with
            | none => some j
            | some b => if j.created_at < b.created_at then some j else some b)
            (some a) = some res := h
        obtain ⟨hmem, hlb, hall⟩ := ih (some a) res h'
        have hra : res.created_at ≤ a.created_at := hlb a rfl
        refine ⟨?_, fun b hb => Option.noConfusion hb, fun c hc => ?_⟩
        · rcases hmem with heq | hm
          · cases heq
            exact Or.inr (List.mem_cons_self a l)
          · exact Or.inr (List.mem_cons_of_mem a hm)
        · rcases List.mem_cons.mp hc with hc1 | hc2
          · rw [hc1]
            exact hra
          · exact hall c hc2
      · have h' : l.foldl (fun acc j =>
            match acc with
            | none => some j
            | some b => if j.created_at < b.created_at then some j else some b)
            (if a.created_at < b.created_at then some a else some b) = some res := h
        by_cases hlt : a.created_at < b.created_at
        · rw [if_pos hlt] at h'
          obtain ⟨hmem, hlb, hall⟩ := ih (some a) res h'
          have hra : res.created_at ≤ a.created_at := hlb a rfl
          refine ⟨?_, fun b0 hb0 => ?_, fun c hc => ?_⟩
          · rcases hmem with heq | hm
            · cases heq
              exact Or.inr (List.mem_cons_self a l)
            · exact Or.inr (List.mem_cons_of_mem a hm)
          · cases hb0
            omega
          · rcases List.mem_cons.mp hc with hc1 | hc2
            · rw [hc1]
              exact hra
            · exact hall c hc2
        · rw [if_neg hlt] at h'
          obtain ⟨hmem, hlb, hall⟩ := ih (some b) res h'
          have hrb : res.created_at ≤ b.created_at := hlb b rfl
          refine ⟨?_, fun b0 hb0 => ?_, fun c hc => ?_⟩
          · rcases hmem with heq | hm
            · exact Or.inl heq
            · exact Or.inr (List.mem_cons_of_mem a hm)
          · cases hb0
            exact hrb
          · rcases List.mem_cons.mp hc with hc1 | hc2
            · rw [hc1]
              omega
            · exact hall c hc2

/-- The selection fold produces a value when the accumulator or the list is
nonempty. -/
theorem select_fold_isSome (l : List DBJob) :
    ∀ acc : Option DBJob, (acc.isSome = true ∨ l ≠ []) →
      (l.foldl (fun acc j =>
        match acc with
        | none => some j
        | some b => if j.created_at < b.created_at then some j else some b) acc).isSome
        = true := by
  induction l with
  | nil =>
      intro acc h
      rcases h with h | h
      · exact h
      · exact absurd rfl h
  | cons a l ih =>
      intro acc h
      rw [List.foldl_cons]
      apply ih
      left
      rcases acc with _ | b
      · rfl
      · show ((if a.created_at < b.created_at then some a else some b) : Option DBJob).isSome
          = true
        split <;> rfl

/-- What select_next returns is a queued candidate of the requested task
types with minimal created_at among all such candidates. -/
theorem select_next_spec (db : List DBJob) (tts : List String) (j : DBJob)
    (h : Adapters.select_next db tts = some j) :
    j ∈ db ∧ j.status = "queued" ∧ tts.contains j.task_type = true
    ∧ ∀ c ∈ db, c.status = "queued" → tts.contains c.task_type = true →
        j.created_at ≤ c.created_at := by
  unfold Adapters.select_next at h
  obtain ⟨hmem, _, hall⟩ := select_fold_spec
    (db.filter (fun j => j.status == "queued" && tts.contains j.task_type)) none j h
  rcases hmem with heq | hm
  · cases heq
  · obtain ⟨hdb, hpred⟩ := List.mem_filter.mp hm
    rw [Bool.and_eq_true] at hpred
    refine ⟨hdb, by simpa using hpred.1, hpred.2, fun c hc hcs hct => ?_⟩
    apply hall
    rw [List.mem_filter, Bool.and_eq_true]
    exact ⟨hc, by simp [hcs], hct⟩

/-- select_next returns a row whenever some queued candidate of the
requested task types exists. -/
theorem select_next_isSome (db : List DBJob) (tts : List String) (J : DBJob)
    (hJ : J ∈ db) (hs : J.status = "queued") (ht : tts.contains J.task_type = true) :
    (Adapters.select_next db tts).isSome = true := by
  unfold Adapters.select_next
  apply select_fold_isSome
  right
  intro hnil
  have hmem : J ∈ db.filter (fun j => j.status == "queued" && tts.contains j.task_type) := by
    rw [List.mem_filter, Bool.and_eq_true]
    exact ⟨hJ, by simp [hs], ht⟩
  rw [hnil] at hmem
  exact absurd hmem (List.not_mem_nil J)

/-- find? by job id returns the member itself when job ids are unique in the
table. -/
theorem find?_self_of_uniq (db : List DBJob) (J : DBJob) (hJ : J ∈ db)
    (huniq : ∀ a ∈ db, ∀ b ∈ db, a.job_id = b.job_id → a = b) :
    db.find? (fun j => j.job_id == J.job_id) = some J := by
  have hex : (db.find? (fun j => j.job_id == J.job_id)).isSome = true := by
    rw [List.find?_isSome]
    exact ⟨J, hJ, by simp⟩
  obtain ⟨r, hr⟩ := Option.isSome_iff_exists.mp hex
  have hmem := List.mem_of_find?_eq_some hr
  have hp := List.find?_some hr
  rw [beq_iff_eq] at hp
  rw [hr, huniq r hmem J hJ hp]

/-- Conversion of a row with parseable (or empty) params succeeds, keeps the
plain fields, and computes task_output by the guarded parse of the stored
string. -/
theorem db_to_library_job_ok (j : DBJob)
    (hp : j.params = "" ∨ (jsonLoads j.params).isSome = true) :
    ∃ lib, Adapters.db_to_library_job j = Except.ok lib
      ∧ lib.job_id = j.job_id ∧ lib.status = j.status
      ∧ lib.task_type = j.task_type ∧ lib.progress = j.progress
      ∧ lib.error_message = j.error_message
      ∧ lib.task_output = (match j.task_output with
          | some s => if s == "" then none else jsonLoads s
          | none => none) := by
  unfold Adapters.db_to_library_job
  by_cases he : (j.params == "") = true
  · rw [if_pos he]
    exact ⟨_, rfl, rfl, rfl, rfl, rfl, rfl, rfl⟩
  · rw [if_neg he]
    rcases hp with hp | hp
    · exact absurd (by simp [hp]) he
    · obtain ⟨v, hv⟩ := Option.isSome_iff_exists.mp hp
      rw [hv]
      exact ⟨_, rfl, rfl, rfl, rfl, rfl, rfl, rfl⟩

/-- C6: when J1 is the strictly oldest queued candidate of the requested
task types and J2 is another queued candidate created later, fetch_next_job
claims and returns J1 with status processing and leaves the J2 row unchanged
in the table: the oldest created_at is served first, so J1 is returned
before J2. -/
theorem fetch_next_job_fifo (db : List DBJob) (tts : List String) (now : Int)
    (J1 J2 : DBJob)
    (huniq : ∀ a ∈ db, ∀ b ∈ db, a.job_id = b.job_id → a = b)
    (h1 : J1 ∈ db) (hs1 : J1.status = "queued") (ht1 : tts.contains J1.task_type = true)
    (h2 : J2 ∈ db) (hs2 : J2.status = "queued") (ht2 : tts.contains J2.task_type = true)
    (hne : J2 ≠ J1)
    (hmin : ∀ c ∈ db, c.status = "queued" → tts.contains c.task_type = true → c ≠ J1 →
      J1.created_at < c.created_at)
    (hparams : J1.params = "" ∨ (jsonLoads J1.params).isSome = true) :
    Adapters.select_next db tts = some J1
    ∧ J1.created_at < J2.created_at
    ∧ (∃ lib, (Adapters.fetch_next_job db tts now).ret = Except.ok (some lib)
        ∧ lib.job_id = J1.job_id ∧ lib.status = "processing")
    ∧ J2 ∈ (Adapters.fetch_next_job db tts now).db := by
  have hex := select_next_isSome db tts J1 h1 hs1 ht1
  obtain ⟨sel, hsel⟩ := Option.isSome_iff_exists.mp hex
  obtain ⟨hselMem, hselQ, hselT, hselMin⟩ := select_next_spec db tts sel hsel
  have hselJ1 : sel = J1 := by
    by_cases heq : sel = J1
    · exact heq
    · have hlt := hmin sel hselMem hselQ hselT heq
      have hle := hselMin J1 h1 hs1 ht1
      omega
  subst hselJ1
  have hltJ2 : sel.created_at < J2.created_at := hmin J2 h2 hs2 ht2 hne
  have hid : (J2.job_id == sel.job_id) = false := by
    by_cases h : J2.job_id = sel.job_id
    · exact absurd (huniq J2 h2 sel h1 h) hne
    · simp [h]
  have htne : tts.isEmpty = false := by
    cases tts with
    | nil => cases ht1
    | cons a l => rfl
  have hcount : (db.countP (fun j => j.job_id == sel.job_id && j.status == "queued") == 0)
      = false := by
    have hpos : 0 < db.countP (fun j => j.job_id == sel.job_id && j.status == "queued") := by
      rw [List.countP_pos_iff]
      exact ⟨sel, h1, by simp [hs1]⟩
    simp [Nat.pos_iff_ne_zero.mp hpos]
  have hfind2 : (db.map (fun j => if j.job_id == sel.job_id && j.status == "queued"
        then { j with status := "processing", started_at := some now } else j)).find?
        (fun j => j.job_id == sel.job_id)
      = some { sel with status := "processing", started_at := some now } := by
    rw [find?_update_map_cond db sel.job_id
        (fun j => { j with status := "processing", started_at := some now })
        (fun j => rfl) (fun j => j.status == "queued"),
      find?_self_of_uniq db sel h1 huniq]
    simp [hs1]
  have hfetch : Adapters.fetch_next_job db tts now
      = { db := db.map (fun j => if j.job_id == sel.job_id && j.status == "queued"
            then { j with status := "processing", started_at := some now } else j),
          ret := (Adapters.db_to_library_job
            { sel with status := "processing", started_at := some now }).map some } := by
    unfold Adapters.fetch_next_job
    rw [if_neg (by simp [htne])]
    simp only [hsel]
    rw [hcount]
    simp only [Bool.false_eq_true, if_false, hfind2]
  obtain ⟨lib, hlib, hlibId, hlibSt, -, -, -, -⟩ := db_to_library_job_ok
    { sel with status := "processing", started_at := some now } hparams
  refine ⟨hsel, hltJ2, ⟨lib, ?_, hlibId, hlibSt⟩, ?_⟩
  · rw [hfetch]
    show (Adapters.db_to_library_job _).map some = _
    rw [hlib]
    rfl
  · rw [hfetch]
    show J2 ∈ db.map _
    have hmm := List.mem_map_of_mem (fun j => if j.job_id == sel.job_id && j.status == "queued"
      then { j with status := "processing", started_at := some now } else j) h2
    simp only [hid, Bool.false_and, Bool.false_eq_true, if_false] at hmm
    exact hmm

/-- jobF1 is the older queued job of the FIFO witness pair. -/
def jobF1 : DBJob :=
  { job_id := "a", task_type := "t", params := "", status := "queued",
    progress := 0, created_at := 1, started_at := none, completed_at := none,
    task_output := none, error_message := none, retry_count := 0, max_retries := 3,
    created_by := none, priority := none }

/-- jobF2 is the later queued job of the FIFO witness pair. -/
def jobF2 : DBJob :=
  { jobF1 with job_id := "b", created_at := 2 }

/-- C6 witness: on a two-job queue the older job is selected, claimed as
processing and returned, while the newer job stays queued in the table. -/
theorem fetch_next_job_fifo_witness :
    Adapters.select_next [jobF1, jobF2] ["t"] = some jobF1
    ∧ jobF1.created_at < jobF2.created_at
    ∧ (∃ lib, (Adapters.fetch_next_job [jobF1, jobF2] ["t"] 5).ret = Except.ok (some lib)
        ∧ lib.job_id = jobF1.job_id ∧ lib.status = "processing")
    ∧ jobF2 ∈ (Adapters.fetch_next_job [jobF1, jobF2] ["t"] 5).db :=
  fetch_next_job_fifo [jobF1, jobF2] ["t"] 5 jobF1 jobF2 (by decide) (by decide) rfl rfl
    (by decide) (by decide) rfl (by decide) (by decide) (Or.inl rfl)

/-- jobLibC7 is a library job used to exercise the priority handling of
add_job on concrete inputs. -/
def jobLibC7 : LibraryJob :=
  { job_id := "j7", task_type := "t", params := Json.obj [], status := "queued",
    progress := 0, task_output := none, error_message := none }

/-- C7 counterexample: add_job called with priority 5 inserts a row whose
priority column is left unset (none) rather than 5, so a read of the row
does not reflect the supplied priority. -/
theorem add_job_priority_cex :
    ((Adapters.add_job [] jobLibC7 none (some 5) 0).db.getLast?).map DBJob.priority
      = some none
    ∧ ¬ (some (none : Option Int) = some (some (5 : Int))) :=
  ⟨rfl, by decide⟩

/-- C7 (amended): add_job ignores its priority argument: its result does not
depend on it and the inserted row carries no priority value; a supplied
priority is persisted only by rows built through job_record_to_db_job, which
stores priority or 0 (0 when the argument is absent or zero). -/
theorem priority_not_persisted_by_add_job (db : List DBJob) (job : LibraryJob)
    (cb : Option String) (now : Int) (p q : Option Int) (r : JobRecord)
    (cb2 : Option String) (v : Int) :
    Adapters.add_job db job cb p now = Adapters.add_job db job cb q now
    ∧ ((Adapters.add_job db job cb p now).db.getLast?).map DBJob.priority = some none
    ∧ (job_record_to_db_job r cb2 none now).priority = 0
    ∧ (v ≠ 0 → (job_record_to_db_job r cb2 (some v) now).priority = v)
    ∧ (job_record_to_db_job r cb2 (some 0) now).priority = 0 := by
  refine ⟨rfl, ?_, rfl, fun hv => ?_, by simp [job_record_to_db_job, pyOrInt]⟩
  · show ((db ++ [Adapters.new_job_row job cb now]).getLast?).map DBJob.priority = some none
    rw [List.getLast?_concat]
    rfl
  · show pyOrInt (some v) 0 = v
    simp [pyOrInt, hv]

/-- recC7 is a concrete job record for the priority witness. -/
def recC7 : JobRecord :=
  { job_id := "r7", task_type := "t", params := Json.obj [], output := none,
    status := "queued", progress := 0, error_message := none }

/-- C7 witness: concrete instances of the amended priority behaviour. -/
theorem priority_not_persisted_by_add_job_witness :
    Adapters.add_job [] jobLibC7 none (some 5) 0 = Adapters.add_job [] jobLibC7 none (some 9) 0
    ∧ ((Adapters.add_job [] jobLibC7 none (some 5) 0).db.getLast?).map DBJob.priority
        = some none
    ∧ (job_record_to_db_job recC7 none (some 5) 0).priority = 5 :=
  ⟨(priority_not_persisted_by_add_job [] jobLibC7 none 0 (some 5) (some 9) recC7 none 5).1,
   (priority_not_persisted_by_add_job [] jobLibC7 none 0 (some 5) (some 9) recC7 none 5).2.1,
   (priority_not_persisted_by_add_job [] jobLibC7 none 0 (some 5) (some 9) recC7 none
      5).2.2.2.1 (by decide)⟩

/-- C9: the two historical job-repository snapshots (adapters.py and
shared_db.py) and the two storage snapshots (file_storage.py and
job_storage.py) are observationally equivalent on the shared operations: for
every starting state and arguments each pair of corresponding operations
produces the same resulting persisted state and the same return value. -/
theorem snapshots_observationally_equal :
    (∀ db job cb p now, Adapters.add_job db job cb p now = SharedDb.add_job db job cb p now)
    ∧ (∀ db id, Adapters.get_job db id = SharedDb.get_job db id)
    ∧ (∀ db id kw now, Adapters.update_job db id kw now = SharedDb.update_job db id kw now)
    ∧ (∀ db tts now, Adapters.fetch_next_job db tts now = SharedDb.fetch_next_job db tts now)
    ∧ (∀ db id, Adapters.delete_job db id = SharedDb.delete_job db id)
    ∧ (∀ fs base id, FileStorageSvc.create_directory fs base id
        = JobStorageSvc.create_directory fs base id)
    ∧ (∀ fs base id rel f mk, FileStorageSvc.save fs base id rel f mk
        = JobStorageSvc.save fs base id rel f mk)
    ∧ (∀ fs base id, FileStorageSvc.remove fs base id = JobStorageSvc.remove fs base id)
    ∧ (∀ base id rel, FileStorageSvc.resolve_path base id rel
        = JobStorageSvc.resolve_path base id rel) :=
  ⟨fun _ _ _ _ _ => rfl, fun _ _ => rfl, fun _ _ _ _ => rfl, fun _ _ _ => rfl,
   fun _ _ => rfl, fun _ _ _ => rfl, fun _ _ _ _ _ _ => rfl, fun _ _ _ => rfl,
   fun _ _ _ => rfl⟩

/-- C10: get_job on a stored row whose persisted task_output string is not
valid JSON returns the job with task_output none instead of raising; all
other fields are converted unaffected. -/
theorem get_job_invalid_task_output (db : List DBJob) (id : String) (j : DBJob)
    (s : String)
    (hfind : db.find? (fun x => x.job_id == id) = some j)
    (hto : j.task_output = some s) (hbad : jsonLoads s = none)
    (hparams : j.params = "" ∨ (jsonLoads j.params).isSome = true) :
    ∃ lib, Adapters.get_job db id = Except.ok (some lib)
      ∧ lib.task_output = none
      ∧ lib.job_id = j.job_id ∧ lib.task_type = j.task_type ∧ lib.status = j.status
      ∧ lib.progress = j.progress ∧ lib.error_message = j.error_message := by
  obtain ⟨lib, hlib, hid2, hst, htt, hpr, hem, hto2⟩ := db_to_library_job_ok j hparams
  refine ⟨lib, ?_, ?_, hid2, htt, hst, hpr, hem⟩
  · unfold Adapters.get_job
    simp only [hfind]
    rw [hlib]
    rfl
  · rw [hto2]
    simp only [hto]
    by_cases he : (s == "") = true
    · rw [if_pos he]
    · rw [if_neg he]
      exact hbad

/-- jobC10 is a row whose stored task_output string fails to parse as
JSON. -/
def jobC10 : DBJob :=
  { job_id := "jt", task_type := "t", params := "", status := "queued",
    progress := 0, created_at := 0, started_at := none, completed_at := none,
    task_output := some "nope", error_message := none, retry_count := 0, max_retries := 3,
    created_by := none, priority := none }

/-- C10 witness: reading the row with the unparseable task_output string
yields a job whose task_output is none and whose plain fields match. -/
theorem get_job_invalid_task_output_witness :
    ∃ lib, Adapters.get_job [jobC10] "jt" = Except.ok (some lib)
      ∧ lib.task_output = none
      ∧ lib.job_id = jobC10.job_id ∧ lib.task_type = jobC10.task_type
      ∧ lib.status = jobC10.status ∧ lib.progress = jobC10.progress
      ∧ lib.error_message = jobC10.error_message :=
  get_job_invalid_task_output [jobC10] "jt" jobC10 "nope" rfl rfl rfl (Or.inl rfl)

/-- Folding hasher updates over a chunk list absorbs exactly the
concatenation of the chunks. -/
theorem foldl_hasherUpdate_eq (ls : List (List Nat)) :
    ∀ acc, ls.foldl hasherUpdate acc = acc ++ ls.flatten := by
  induction ls with
  | nil =>
      intro acc
      simp
  | cons c cs ih =>
      intro acc
      rw [List.foldl_cons, ih, List.flatten_cons, hasherUpdate, List.append_assoc]

/-- Folding plain appends over a chunk list builds the concatenation of the
chunks. -/
theorem foldl_append_eq (ls : List (List Nat)) (acc : List Nat) :
    ls.foldl (fun a c => a ++ c) acc = acc ++ ls.flatten :=
  foldl_hasherUpdate_eq ls acc

/-- Folding length additions over a chunk list counts the bytes of the
concatenation. -/
theorem foldl_length_eq (ls : List (List Nat)) :
    ∀ acc, ls.foldl (fun n c => n + c.length) acc = acc + ls.flatten.length := by
  induction ls with
  | nil =>
      intro acc
      simp
  | cons c cs ih =>
      intro acc
      rw [List.foldl_cons, ih, List.flatten_cons, List.length_append]
      omega

/-- Auxiliary form of chunk flattening with an explicit length bound for the
induction. -/
theorem chunksOfLen_flatten_aux (n : Nat) : ∀ (k : Nat) (l : List Nat), l.length ≤ k →
    (chunksOfLen (n + 1) l).flatten = l := by
  intro k
  induction k with
  | zero =>
      intro l hl
      have hnil : l = [] := List.eq_nil_of_length_eq_zero (Nat.le_zero.mp hl)
      subst hnil
      simp [chunksOfLen]
  | succ k ih =>
      intro l hl
      cases l with
      | nil => simp [chunksOfLen]
      | cons x xs =>
          have hb : (xs.drop n).length ≤ k := by
            simp only [List.length_drop]
            simp only [List.length_cons] at hl
            omega
          rw [chunksOfLen, List.flatten_cons, ih (xs.drop n) hb, List.cons_append,
            List.take_append_drop]

/-- Splitting into chunks of a positive size and flattening restores the
original list. -/
theorem chunksOfLen_flatten (n : Nat) (l : List Nat) :
    (chunksOfLen (n + 1) l).flatten = l :=
  chunksOfLen_flatten_aux n l.length l (le_refl _)

/-- takeWhile with the nonempty test keeps a list of nonempty chunks
whole. -/
theorem takeWhile_eq_self_of_all (cs : List (List Nat)) (h : ∀ c ∈ cs, c ≠ []) :
    cs.takeWhile (fun c => !c.isEmpty) = cs := by
  induction cs with
  | nil => rfl
  | cons c cs ih =>
      have hc : (!c.isEmpty) = true := by
        have hne := h c (List.mem_cons_self c cs)
        simp [List.isEmpty_iff, hne]
      rw [List.takeWhile_cons, if_pos hc, ih (fun d hd => h d (List.mem_cons_of_mem _ hd))]

/-- Folding insertDir keeps every directory that was present or listed. -/
theorem foldl_insertDir_contains (l : List (List String)) :
    ∀ (fs : FS) (q : List String), q ∈ l ∨ fs.dirs.contains q = true →
      ((l.foldl insertDir fs).dirs.contains q) = true := by
  induction l with
  | nil =>
      intro fs q h
      rcases h with h | h
      · exact absurd h (List.not_mem_nil q)
      · exact h
  | cons a l ih =>
      intro fs q h
      rw [List.foldl_cons]
      apply ih
      rcases h with h | h
      · rcases List.mem_cons.mp h with h1 | h2
        · right
          subst h1
          unfold insertDir
          by_cases hc : fs.dirs.contains q = true
          · rw [if_pos hc]
            exact hc
          · rw [if_neg hc]
            show ((q :: fs.dirs).contains q) = true
            rw [List.contains_cons]
            simp
        · left
          exact h2
      · right
        unfold insertDir
        by_cases hc2 : fs.dirs.contains a = true
        · rw [if_pos hc2]
          exact h
        · rw [if_neg hc2]
          show ((a :: fs.dirs).contains q) = true
          have hm : q ∈ fs.dirs := by simpa using h
          simp [List.contains_cons, hm]

/-- A nonempty path is one of its own ancestors. -/
theorem self_mem_ancestorsOf : ∀ (p : List String), p ≠ [] → p ∈ ancestorsOf p := by
  intro p
  induction p with
  | nil =>
      intro h
      exact absurd rfl h
  | cons x xs ih =>
      intro _
      by_cases hxs : xs = []
      · subst hxs
        simp [ancestorsOf]
      · have hx := ih hxs
        show x :: xs ∈ [x] :: (ancestorsOf xs).map (fun p => x :: p)
        exact List.mem_cons_of_mem _ (List.mem_map_of_mem _ hx)

/-- mkdirAll establishes the created directory. -/
theorem mkdirAll_contains_self (fs : FS) (p : List String) (h : p ≠ []) :
    (mkdirAll fs p).dirs.contains p = true :=
  foldl_insertDir_contains (ancestorsOf p) fs p (Or.inl (self_mem_ancestorsOf p h))

/-- The parent of a save target inside a job directory is never the empty
path. -/
theorem target_dropLast_ne_nil (base : List String) (jobId : String) (rel : List String) :
    (base ++ ["jobs", jobId] ++ rel).dropLast ≠ [] := by
  intro h
  have hlen := congrArg List.length h
  simp only [List.length_dropLast, List.length_append, List.length_nil,
    List.length_cons, List.length_singleton] at hlen
  omega

/-- mkdirAll leaves file contents untouched. -/
theorem readFile_mkdirAll (fs : FS) (d p : List String) :
    readFile (mkdirAll fs d) p = readFile fs p := by
  unfold mkdirAll
  generalize ancestorsOf d = l
  induction l generalizing fs with
  | nil => rfl
  | cons a l ih =>
      rw [List.foldl_cons, ih]
      unfold readFile insertDir
      split <;> rfl

/-- C8: saving the same byte content through the bytes branch, the file-copy
branch and the stream branch of save yields SavedJobFile results with
identical SHA-256 hex digests and identical size, each equal to the SHA-256
and length of the content written. -/
theorem save_hash_determinism (fs : FS) (base : List String) (jobId : String)
    (rel : List String) (p : List String) (content : List Nat) (cs : List (List Nat))
    (hread : readFile fs p = some content)
    (hchunks : ∀ c ∈ cs, c ≠ [])
    (hjoin : cs.flatten = content) :
    ∃ fs1 fs2 fs3 r1 r2 r3,
      FileStorageSvc.save fs base jobId rel (FileLike.bytes content) true = some (fs1, r1)
      ∧ FileStorageSvc.save fs base jobId rel (FileLike.path p) true = some (fs2, r2)
      ∧ FileStorageSvc.save fs base jobId rel (FileLike.stream cs) true = some (fs3, r3)
      ∧ r1.size = content.length ∧ r2.size = content.length ∧ r3.size = content.length
      ∧ r1.hash = sha256Hex content ∧ r2.hash = sha256Hex content
      ∧ r3.hash = sha256Hex content := by
  have hparent : parentDirOk (mkdirAll fs (base ++ ["jobs", jobId] ++ rel).dropLast)
      (base ++ ["jobs", jobId] ++ rel) = true :=
    mkdirAll_contains_self fs _ (target_dropLast_ne_nil base jobId rel)
  have hchunkEq : storageChunkSize = 1048575 + 1 := rfl
  have habsorbCopy : (chunksOfLen storageChunkSize content).foldl hasherUpdate []
      = content := by
    rw [foldl_hasherUpdate_eq, hchunkEq, chunksOfLen_flatten]
    rfl
  have htw : cs.takeWhile (fun c => !c.isEmpty) = cs := takeWhile_eq_self_of_all cs hchunks
  have hb : FileStorageSvc.save fs base jobId rel (FileLike.bytes content) true
      = some (writeFile (mkdirAll fs (base ++ ["jobs", jobId] ++ rel).dropLast)
          (base ++ ["jobs", jobId] ++ rel) content,
        { relative_path := rel, size := content.length, hash := sha256Hex content }) := by
    unfold FileStorageSvc.save
    simp only [if_true]
    rw [if_pos hparent]
    simp [hasherUpdate]
  have hpth : FileStorageSvc.save fs base jobId rel (FileLike.path p) true
      = some (writeFile (mkdirAll fs (base ++ ["jobs", jobId] ++ rel).dropLast)
          (base ++ ["jobs", jobId] ++ rel) content,
        { relative_path := rel, size := content.length, hash := sha256Hex content }) := by
    unfold FileStorageSvc.save
    simp only [if_true]
    rw [if_pos hparent]
    rw [readFile_mkdirAll, hread]
    simp only [habsorbCopy]
  have hstr : FileStorageSvc.save fs base jobId rel (FileLike.stream cs) true
      = some (writeFile (mkdirAll fs (base ++ ["jobs", jobId] ++ rel).dropLast)
          (base ++ ["jobs", jobId] ++ rel) content,
        { relative_path := rel, size := content.length, hash := sha256Hex content }) := by
    unfold FileStorageSvc.save
    simp only [if_true]
    rw [if_pos hparent]
    rw [htw, foldl_append_eq, foldl_hasherUpdate_eq, foldl_length_eq, hjoin]
    simp
  exact ⟨_, _, _, _, _, _, hb, hpth, hstr, rfl, rfl, rfl, rfl, rfl, rfl⟩

/-- fsC8 is a filesystem holding one source file with bytes 1, 2, 3. -/
def fsC8 : FS := { dirs := [], files := [(["src"], [1, 2, 3])] }

/-- C8 witness: on concrete content 1-2-3, the bytes branch, the copy branch
from the stored source file, and the stream branch delivering the chunks
[1] and [2, 3] all report size 3 and the same SHA-256 digest of the
content. -/
theorem save_hash_determinism_witness :
    ∃ fs1 fs2 fs3 r1 r2 r3,
      FileStorageSvc.save fsC8 [] "w" ["f"] (FileLike.bytes [1, 2, 3]) true = some (fs1, r1)
      ∧ FileStorageSvc.save fsC8 [] "w" ["f"] (FileLike.path ["src"]) true = some (fs2, r2)
      ∧ FileStorageSvc.save fsC8 [] "w" ["f"] (FileLike.stream [[1], [2, 3]]) true
          = some (fs3, r3)
      ∧ r1.size = ([1, 2, 3] : List Nat).length ∧ r2.size = ([1, 2, 3] : List Nat).length
      ∧ r3.size = ([1, 2, 3] : List Nat).length
      ∧ r1.hash = sha256Hex [1, 2, 3] ∧ r2.hash = sha256Hex [1, 2, 3]
      ∧ r3.hash = sha256Hex [1, 2, 3] :=
  save_hash_determinism fsC8 [] "w" ["f"] ["src"] [1, 2, 3] [[1], [2, 3]] rfl
    (by decide) rfl
